import Mathlib

/-!
# n30f: display a png in a borderless, transparent window

A shallow embedding of `n30f.c`.  The program is a sequence of calls into libc,
xcb and cairo; a run is modelled as the list of those calls (`Effect`) together
with the exit status.  Everything the outside world decides (what `getopt_long`
returns, whether the png loads, what the X server advertises and answers, which
events arrive) is an explicit input.
-/

namespace N30f

/-! ## Values -/

/-- A C `double`: a finite value `m * 2 ^ e`, or a NaN or an infinity. -/
inductive Double
  | fin (m : Int) (e : Int)
  | nonfin
  deriving DecidableEq, Repr

/-- An `xcb_visualtype_t` (only the field the program reads). -/
structure xcb_visualtype_t where
  visual_id : Nat
  deriving DecidableEq, Repr

/-- An `xcb_depth_t` with the visual array that follows it in the setup reply. -/
structure xcb_depth_t where
  depth : Nat
  visuals : List xcb_visualtype_t
  deriving DecidableEq, Repr

/-- An `xcb_screen_t` (the fields the program reads) with its allowed depths in
the order the server sent them. -/
structure xcb_screen_t where
  root : Nat
  height_in_pixels : Nat
  allowed_depths : List xcb_depth_t
  deriving DecidableEq, Repr

/-- The data of an `xcb_change_property` request. -/
inductive PropData
  | words (ws : List Nat)
  | bytes (s : String)
  deriving DecidableEq, Repr

/-- One call the program makes into libc, xcb or cairo, with the values of the
arguments it passes (the connection, surface and context handles are left out:
there is one of each). -/
inductive Effect
  | stdout (text : String)
  | fflush_stdout
  | errx (status : Int) (msg : String)
  | cairo_image_surface_create_from_png (filename : String)
  | xcb_connect
  | xcb_create_colormap (alloc mid window visual : Nat)
  | xcb_create_window (depth wid parent : Nat) (x y width height : Int)
      (border_width cls visual value_mask : Nat) (value_list : List Nat)
  | xcb_free_colormap (cmap : Nat)
  | cairo_xcb_surface_create (drawable : Nat) (width height : Int)
  | cairo_create
  | cairo_scale (sx sy : Double)
  | xcb_intern_atom (only_if_exists : Nat) (name_len : Nat) (name : String)
  | xcb_change_property (mode window property type format data_len : Nat) (data : PropData)
  | xcb_change_window_attributes (window value_mask : Nat) (value_list : List Nat)
  | xcb_map_window (window : Nat)
  | xcb_configure_window (window value_mask : Nat) (value_list : List Nat)
  | xcb_flush
  | daemon (nochdir noclose : Int)
  | cairo_set_source_surface (x y : Int)
  | cairo_rectangle (x y width height : Int)
  | cairo_fill
  | system (command : String)
  deriving DecidableEq, Repr

/-- What the world outside the program supplies during one run. -/
structure World where
  /-- libc `atoi` -/
  atoi : String → Int
  /-- libc `atof` -/
  atof : String → Double
  /-- `cairo_image_surface_create_from_png`: the natural width and height of the
  decoded image, `none` when the surface status is not `CAIRO_STATUS_SUCCESS` -/
  png : String → Option (Nat × Nat)
  /-- `xcb_connection_has_error` after `xcb_connect` -/
  connection_has_error : Bool
  /-- first screen of the setup, `none` for a NULL pointer -/
  screen : Option xcb_screen_t
  /-- the n-th value `xcb_generate_id` returns -/
  generate_id : Nat → Nat
  /-- the atom in the reply to the i-th `xcb_intern_atom`, `none` for a NULL reply -/
  atom_reply : Nat → Option Nat
  /-- `response_type` of the events `xcb_wait_for_event` delivers before it
  returns NULL -/
  events : List Nat

/-- The `struct xcb_display_info` once `init` has filled it.  The pointer `v`
is the start of a visual array, represented by that array. -/
structure xcb_display_info where
  s : xcb_screen_t
  v : List xcb_visualtype_t
  deriving DecidableEq, Repr

/-! ## Display session -/

/-- The loop of `get_alpha_visualtype` over the depth iterator. -/
def get_alpha_visualtype_loop : List xcb_depth_t → Option (List xcb_visualtype_t)
  | [] => none
  | d :: rest =>
    if d.depth = 32 then some d.visuals else get_alpha_visualtype_loop rest

/-- `get_alpha_visualtype`: `none` is NULL; `some vs` is the pointer
`xcb_depth_visuals_iterator(di.data).data`, the start of the visual array `vs`
of the depth entry the loop stopped at. -/
def get_alpha_visualtype (s : xcb_screen_t) : Option (List xcb_visualtype_t) :=
  get_alpha_visualtype_loop s.allowed_depths

/-- `init`: the calls made, and the display info unless `errx` ended the process. -/
def init (w : World) : List Effect × Option xcb_display_info :=
  if w.connection_has_error then
    ([Effect.xcb_connect, Effect.errx 1 "couldn't connect to X"], none)
  else
    match w.screen with
    | none => ([Effect.xcb_connect, Effect.errx 1 "couldn't find the screen"], none)
    | some s =>
      match get_alpha_visualtype s with
      | none => ([Effect.xcb_connect, Effect.errx 1 "transparency support not found"], none)
      | some v => ([Effect.xcb_connect], some ⟨s, v⟩)

/-! ## Machine arithmetic -/

/-- Two's-complement wrap of a result to a 32-bit `int`; the identity on
`[-2^31, 2^31)`, the only range where C defines signed arithmetic. -/
def wrap_int (i : Int) : Int := (i + 2 ^ 31) % 2 ^ 32 - 2 ^ 31

/-- Conversion of an `int` to `uint32_t`. -/
def to_uint32 (i : Int) : Nat := (i % 2 ^ 32).toNat

/-- Round `M * 2 ^ e` to a double: 53 significant bits, ties to even.  (The
exponent range is not modelled: an overflowing product is out of `int` range
either way and an underflowing one truncates to 0 either way.) -/
def Double.round (M e : Int) : Double :=
  let a := M.natAbs
  if a < 2 ^ 53 then Double.fin M e
  else
    let k := Nat.log2 a - 52
    let q := a / 2 ^ k
    let r := a % 2 ^ k
    let half := 2 ^ (k - 1)
    let q1 := if half < r ∨ (r = half ∧ q % 2 = 1) then q + 1 else q
    Double.fin (M.sign * q1) (e + k)

/-- Conversion of an `int` to `double`. -/
def Double.of_int (i : Int) : Double := Double.round i 0

/-- The product of two doubles. -/
def Double.mul : Double → Double → Double
  | Double.fin m1 e1, Double.fin m2 e2 => Double.round (m1 * m2) (e1 + e2)
  | _, _ => Double.nonfin

/-- The cast `(int)d`: the fractional part is discarded (truncation toward
zero).  C leaves the cast undefined when the truncated value does not fit an
`int` or `d` is not finite; the model then takes the value x86-64 produces. -/
def Double.to_int : Double → Int
  | Double.nonfin => -2 ^ 31
  | Double.fin m e =>
    let t := if 0 ≤ e then m * 2 ^ e.toNat else Int.tdiv m (2 ^ (-e).toNat)
    if -2 ^ 31 ≤ t ∧ t < 2 ^ 31 then t else -2 ^ 31

/-- The rational value of a finite double. -/
def Double.toRat : Double → Option ℚ
  | Double.nonfin => none
  | Double.fin m e => some ((m : ℚ) * (2 : ℚ) ^ e)

/-! ## X protocol constants (xcb/xproto.h) -/

def XCB_COLORMAP_ALLOC_NONE : Nat := 0
def XCB_WINDOW_CLASS_INPUT_OUTPUT : Nat := 1
def XCB_CW_BACK_PIXEL : Nat := 2
def XCB_CW_BORDER_PIXEL : Nat := 8
def XCB_CW_OVERRIDE_REDIRECT : Nat := 512
def XCB_CW_EVENT_MASK : Nat := 2048
def XCB_CW_COLORMAP : Nat := 8192
def XCB_EVENT_MASK_EXPOSURE : Nat := 32768
def XCB_EVENT_MASK_BUTTON_PRESS : Nat := 4
def XCB_PROP_MODE_REPLACE : Nat := 0
def XCB_PROP_MODE_APPEND : Nat := 2
def XCB_ATOM_ATOM : Nat := 4
def XCB_ATOM_CARDINAL : Nat := 6
def XCB_ATOM_STRING : Nat := 31
def XCB_ATOM_WM_NAME : Nat := 39
def XCB_CONFIG_WINDOW_X : Nat := 1
def XCB_CONFIG_WINDOW_Y : Nat := 2
def XCB_BUTTON_PRESS : Nat := 4
def XCB_EXPOSE : Nat := 12

/-! ## Window builder -/

/-- The read `display_info.v->visual_id`.  When the visual array is empty the
read is past the depth entry and C does not say what it yields; 0 stands for it. -/
def visual_id_at (v : List xcb_visualtype_t) : Nat :=
  match v with
  | [] => 0
  | a :: _ => a.visual_id

/-- `create_window`: the requests issued and the window id returned. -/
def create_window (w : World) (display_info : xcb_display_info) (x y width height dock : Int) :
    List Effect × Nat :=
  let colormap := w.generate_id 0
  let window := w.generate_id 1
  let vals : List Nat :=
    [0x00000000, 0x00000000, to_uint32 dock,
     XCB_EVENT_MASK_EXPOSURE ||| XCB_EVENT_MASK_BUTTON_PRESS, colormap]
  ([Effect.xcb_create_colormap XCB_COLORMAP_ALLOC_NONE colormap display_info.s.root
      (visual_id_at display_info.v),
    Effect.xcb_create_window 32 window display_info.s.root x y width height 0
      XCB_WINDOW_CLASS_INPUT_OUTPUT (visual_id_at display_info.v)
      (XCB_CW_BACK_PIXEL ||| XCB_CW_BORDER_PIXEL ||| XCB_CW_OVERRIDE_REDIRECT |||
        XCB_CW_EVENT_MASK ||| XCB_CW_COLORMAP)
      vals,
    Effect.xcb_free_colormap colormap],
   window)

/-! ## Hint configurator -/

def NET_WM_WINDOW_TYPE : Nat := 0
def NET_WM_WINDOW_TYPE_DOCK : Nat := 1
def NET_WM_STATE : Nat := 2
def NET_WM_STATE_ABOVE : Nat := 3
def NET_WM_DESKTOP : Nat := 4

def atom_names : List String :=
  ["_NET_WM_WINDOW_TYPE",
   "_NET_WM_WINDOW_TYPE_DOCK",
   "_NET_WM_STATE",
   "_NET_WM_STATE_ABOVE",
   "_NET_WM_DESKTOP"]

/-- The number of atom names, `sizeof(atom_names)/sizeof(char *)`. -/
def atoms : Nat := atom_names.length

/-- The second loop of `show_window`: the replies for cookies `i, i+1, ..`
(`n` of them) stored into `atom_list`, `none` as soon as a reply is NULL. -/
def atom_replies (w : World) : Nat → Nat → Option (List Nat)
  | _, 0 => some []
  | i, n + 1 =>
    match w.atom_reply i with
    | none => none
    | some a =>
      match atom_replies w (i + 1) n with
      | none => none
      | some rest => some (a :: rest)

/-- The `data_len` 32-bit words an `xcb_change_property` reads from the pointer
`&atom_list[i]`. -/
def words_at (atom_list : List Nat) (i data_len : Nat) : PropData :=
  PropData.words ((atom_list.drop i).take data_len)

/-- `show_window`: the requests issued, and `false` when `errx` ended the process. -/
def show_window (w : World) (window : Nat) (x y : Int) (title : String) (should_map : Int) :
    List Effect × Bool :=
  let cookies := atom_names.map (fun n => Effect.xcb_intern_atom 0 n.utf8ByteSize n)
  match atom_replies w 0 atoms with
  | none => (cookies ++ [Effect.errx 1 "failed to find atoms"], false)
  | some atom_list =>
    let desktops : List Nat := [to_uint32 (-1)]
    let val : List Nat := [1]
    let vals : List Nat := [to_uint32 x, to_uint32 y]
    (cookies ++
      [Effect.xcb_change_property XCB_PROP_MODE_REPLACE window
          (atom_list.getD NET_WM_WINDOW_TYPE 0) XCB_ATOM_ATOM 32 1
          (words_at atom_list NET_WM_WINDOW_TYPE_DOCK 1),
       Effect.xcb_change_property XCB_PROP_MODE_APPEND window
          (atom_list.getD NET_WM_STATE 0) XCB_ATOM_ATOM 32 2
          (words_at atom_list NET_WM_STATE_ABOVE 2),
       Effect.xcb_change_property XCB_PROP_MODE_REPLACE window
          (atom_list.getD NET_WM_DESKTOP 0) XCB_ATOM_CARDINAL 32 1
          (PropData.words desktops),
       Effect.xcb_change_property XCB_PROP_MODE_REPLACE window XCB_ATOM_WM_NAME
          XCB_ATOM_STRING 8 title.utf8ByteSize (PropData.bytes title),
       Effect.xcb_change_window_attributes window XCB_CW_OVERRIDE_REDIRECT val] ++
      (if should_map ≠ 0 then [Effect.xcb_map_window window] else []) ++
      [Effect.xcb_configure_window window (XCB_CONFIG_WINDOW_X ||| XCB_CONFIG_WINDOW_Y) vals,
       Effect.xcb_flush],
     true)

/-! ## Renderer and event dispatcher -/

/-- `draw` on an image of the given natural size. -/
def draw (image_width image_height : Nat) : List Effect :=
  [Effect.cairo_set_source_surface 0 0,
   Effect.cairo_rectangle 0 0 image_width image_height,
   Effect.cairo_fill]

/-- `ev->response_type & ~0x80` on the `uint8_t` response type, promoted to a
32-bit `int`. -/
def event_code (response_type : Nat) : Nat :=
  (response_type % 256) &&& (2 ^ 32 - 1 - 0x80)

/-- The event loop of `main` over the events delivered before
`xcb_wait_for_event` returns NULL. -/
def event_loop (command : Option String) (image_width image_height : Nat) :
    List Nat → List Effect
  | [] => []
  | response_type :: evs =>
    (if event_code response_type = XCB_EXPOSE then
        draw image_width image_height ++ [Effect.xcb_flush]
      else []) ++
    (if event_code response_type = XCB_BUTTON_PRESS then
        (match command with
         | some c => [Effect.system c]
         | none => [])
      else []) ++
    event_loop command image_width image_height evs

/-! ## Command line -/

/-- The `int` value of a character constant. -/
def char_code (c : Char) : Int := c.toNat

/-- The `int` variables of `main` that a `long_options` entry points to. -/
inductive FlagVar
  | help_flag | dock | background | bottom | unmapped | print_flag
  deriving DecidableEq, Repr

/-- A `struct option`. -/
structure long_option where
  name : String
  has_arg : Nat
  flag : Option FlagVar
  val : Int
  deriving DecidableEq, Repr

/-- The entries of `long_options`. -/
inductive LongIndex
  | help | ignored | daemonise | bottom | command | title | unmapped | print
  deriving DecidableEq, Repr

/-- The table `long_options` (`no_argument` is 0, `required_argument` is 1). -/
def long_options : LongIndex → long_option
  | LongIndex.help => ⟨"help", 0, some FlagVar.help_flag, 1⟩
  | LongIndex.ignored => ⟨"ignored", 0, some FlagVar.dock, 1⟩
  | LongIndex.daemonise => ⟨"daemonise", 0, some FlagVar.background, 1⟩
  | LongIndex.bottom => ⟨"bottom", 0, some FlagVar.bottom, 1⟩
  | LongIndex.command => ⟨"command", 1, none, char_code 'c'⟩
  | LongIndex.title => ⟨"title", 1, none, char_code 't'⟩
  | LongIndex.unmapped => ⟨"unmapped", 0, some FlagVar.unmapped, 1⟩
  | LongIndex.print => ⟨"print", 0, some FlagVar.print_flag, 1⟩

/-- The local variables of `main` that the option loop writes, with their
initial values. -/
structure Locals where
  x : Int := 0
  y : Int := 0
  s : Double := Double.fin 1 0
  dock : Int := 0
  background : Int := 0
  unmapped : Int := 0
  bottom : Int := 0
  title : String := "n30f"
  help_flag : Int := 0
  error_flag : Int := 0
  print_flag : Int := 0
  command : Option String := none
  deriving DecidableEq, Repr

/-- What one call of `getopt_long` found before the end of the options: an
option character of the string "hbidupt:c:x:y:s:" (or `?` for an option it
rejects), or an entry of `long_options`; `optarg` is the option's argument.
The diagnostic `getopt_long` itself writes to standard error for a rejected
option is output of libc and is not recorded in the trace. -/
inductive GetoptResult
  | char (c : Char) (optarg : String)
  | long (index : LongIndex) (optarg : String)
  deriving DecidableEq, Repr

/-- The argument `optarg` points to after the call. -/
def GetoptResult.optarg : GetoptResult → String
  | GetoptResult.char _ a => a
  | GetoptResult.long _ a => a

/-- The store `*flag = val` of `getopt_long`. -/
def store_flag (l : Locals) (f : FlagVar) (val : Int) : Locals :=
  match f with
  | FlagVar.help_flag => { l with help_flag := val }
  | FlagVar.dock => { l with dock := val }
  | FlagVar.background => { l with background := val }
  | FlagVar.bottom => { l with bottom := val }
  | FlagVar.unmapped => { l with unmapped := val }
  | FlagVar.print_flag => { l with print_flag := val }

/-- The effect and return value of `getopt_long`: the option character; for a
long option `val`, or 0 after storing `val` through a non-NULL `flag`. -/
def getopt_long (l : Locals) : GetoptResult → Locals × Int
  | GetoptResult.char c _ => (l, char_code c)
  | GetoptResult.long i _ =>
    match (long_options i).flag with
    | some f => (store_flag l f (long_options i).val, 0)
    | none => (l, (long_options i).val)

/-- The `switch(option)` of `main`: the locals and the value of `option` after it. -/
def main_switch (w : World) (l : Locals) (option : Int) (optarg : String) : Locals × Int :=
  if option = char_code 'h' then ({ l with help_flag := 1 }, -1)
  else if option = char_code 'd' then ({ l with background := 1 }, option)
  else if option = char_code 'i' then ({ l with dock := 1 }, option)
  else if option = char_code 'u' then ({ l with unmapped := 1 }, option)
  else if option = char_code 'p' then ({ l with print_flag := 1 }, option)
  else if option = char_code 'b' then ({ l with bottom := 1 }, option)
  else if option = char_code 'c' then ({ l with command := some (optarg ++ " &") }, option)
  else if option = char_code 's' then ({ l with s := w.atof optarg }, option)
  else if option = char_code 'x' then ({ l with x := w.atoi optarg }, option)
  else if option = char_code 'y' then ({ l with y := w.atoi optarg }, option)
  else if option = char_code 't' then ({ l with title := optarg }, option)
  else if option = char_code '?' then ({ l with error_flag := 1 }, option)
  else (l, option)

/-- The loop `while(option != -1)` over what successive `getopt_long` calls
find; at the end of the list `getopt_long` returns -1. -/
def option_loop (w : World) : Locals → List GetoptResult → Locals
  | l, [] => l
  | l, r :: rs =>
    let g := getopt_long l r
    let sw := main_switch w g.1 g.2 r.optarg
    if sw.2 = -1 then sw.1 else option_loop w sw.1 rs

/-- `usage`: the lines printed. -/
def usage (name : String) : List Effect :=
  [Effect.stdout ("usage: " ++ name ++ " [-x xposition] [-y yposition] [-h, --help] [-d, --dock] [-c, --command] [-t, --title] [-u, --unmapped] [-p, --print] FILE\n"),
   Effect.stdout "    -h, --help       print this message\n",
   Effect.stdout "    -s               set the image scaling\n",
   Effect.stdout "    -x               set the x position\n",
   Effect.stdout "    -y               set the y position\n",
   Effect.stdout "    -i, --ignored    force the window to be ignored for non EWMH WMs\n",
   Effect.stdout "    -d, --daemonise  run n30f daemonised\n",
   Effect.stdout "    -b, --bottom     put n30f at the bottom of the screen\n",
   Effect.stdout "    -c, --command    set the command to run on click\n",
   Effect.stdout "    -t, --title      set the window title\n",
   Effect.stdout "    -u, --unmapped   start with the window unmapped (hidden)\n",
   Effect.stdout "    -p, --print      print the window id to stdout after starting\n"]

/-! ## Printing the window id -/

/-- One lowercase hexadecimal digit. -/
def hex_digit (d : Nat) : Char :=
  if d < 10 then Char.ofNat (48 + d) else Char.ofNat (87 + d)

/-- The digits of the conversion `%x`, most significant first: divide by 16
until nothing is left (`fuel` bounds the number of digits). -/
def hex_digits : Nat → Nat → List Char → List Char
  | 0, _, acc => acc
  | fuel + 1, v, acc =>
    if v / 16 = 0 then hex_digit (v % 16) :: acc
    else hex_digits fuel (v / 16) (hex_digit (v % 16) :: acc)

/-- The conversion `%08x` of an `unsigned int`: the digits, padded on the left
with zeros to at least 8 characters. -/
def printf_08x (v : Nat) : List Char :=
  let ds := hex_digits 8 (v % 2 ^ 32) []
  List.replicate (8 - ds.length) '0' ++ ds

/-- The text of `printf("0x%08x\n", window)`. -/
def print_window (window : Nat) : String :=
  String.mk (['0', 'x'] ++ printf_08x window ++ ['\n'])

/-! ## main -/

/-- A finished run: the calls made in order and the exit status. -/
structure Run where
  trace : List Effect
  status : Int
  deriving DecidableEq, Repr

/-- The part of `main` that follows `init` (from the placement at the bottom
to the event loop): the calls it makes.  It ends either in `errx` inside
`show_window` or when `xcb_wait_for_event` returns NULL. -/
def main_display (w : World) (l : Locals) (display_info : xcb_display_info)
    (natural_width natural_height : Nat) : List Effect :=
  let y :=
    if l.bottom ≠ 0 then
      wrap_int (wrap_int (display_info.s.height_in_pixels - natural_height) - l.y)
    else l.y
  let image_height := Double.to_int (Double.mul (Double.of_int natural_height) l.s)
  let image_width := Double.to_int (Double.mul (Double.of_int natural_width) l.s)
  let cw := create_window w display_info l.x y image_width image_height l.dock
  let window := cw.2
  let surface :=
    [Effect.cairo_xcb_surface_create window image_width image_height,
     Effect.cairo_create,
     Effect.cairo_scale l.s l.s]
  let sw := show_window w window l.x y l.title (if l.unmapped ≠ 0 then 0 else 1)
  if sw.2 = false then cw.1 ++ surface ++ sw.1
  else
    let print :=
      if l.print_flag ≠ 0 then
        [Effect.stdout (print_window window), Effect.fflush_stdout]
      else []
    let daemonise := if l.background ≠ 0 then [Effect.daemon 1 0] else []
    cw.1 ++ surface ++ sw.1 ++ print ++ daemonise ++
      event_loop l.command natural_width natural_height w.events

/-- The part of `main` that follows the option loop, from the test of
`help_flag` on; `l` holds the locals the loop has set. -/
def main_after_options (argv0 : String) (l : Locals) (args : List String) (w : World) : Run :=
  if l.help_flag ≠ 0 then ⟨usage argv0, 0⟩
  else if l.error_flag ≠ 0 then ⟨[], 1⟩
  else
    match args with
    | [] => ⟨[Effect.errx 1 "no file specified"], 1⟩
    | filename :: more =>
      let warning :=
        if more ≠ [] then [Effect.stdout "warning: unexpected argument\n"] else []
      let load := warning ++ [Effect.cairo_image_surface_create_from_png filename]
      match w.png filename with
      | none => ⟨load ++ [Effect.errx 1 ("error reading file: " ++ filename)], 1⟩
      | some (natural_width, natural_height) =>
        match init w with
        | (t, none) => ⟨load ++ t, 1⟩
        | (t, some display_info) =>
          ⟨load ++ t ++ main_display w l display_info natural_width natural_height, 1⟩

/-- `main`.  `argv0` is `argv[0]`, `results` what the successive `getopt_long`
calls find, `args` the arguments `argv[optind..argc)` left once `getopt_long`
has returned -1. -/
def main (argv0 : String) (results : List GetoptResult) (args : List String) (w : World) : Run :=
  main_after_options argv0 (option_loop w {} results) args w

/-! ## Reading a trace -/

/-- The command of a call to `system`. -/
def Effect.system_command : Effect → Option String
  | Effect.system c => some c
  | _ => none

/-- The commands handed to `system`, in order. -/
def system_calls (trace : List Effect) : List String :=
  trace.filterMap Effect.system_command

/-- The window of an `xcb_map_window` request. -/
def Effect.mapped_window : Effect → Option Nat
  | Effect.xcb_map_window win => some win
  | _ => none

/-- The windows of the `xcb_map_window` requests in a trace. -/
def map_requests (trace : List Effect) : List Nat :=
  trace.filterMap Effect.mapped_window

/-- The `(width, height)` of a `cairo_xcb_surface_create` call. -/
def Effect.surface_size : Effect → Option (Int × Int)
  | Effect.cairo_xcb_surface_create _ width height => some (width, height)
  | _ => none

/-- The `(width, height)` of each `cairo_xcb_surface_create` call in a trace. -/
def surface_sizes (trace : List Effect) : List (Int × Int) :=
  trace.filterMap Effect.surface_size

/-- The value list of an `xcb_configure_window` request. -/
def Effect.configure_value_list : Effect → Option (List Nat)
  | Effect.xcb_configure_window _ _ vals => some vals
  | _ => none

/-- The value lists of the `xcb_configure_window` requests in a trace. -/
def configure_values (trace : List Effect) : List (List Nat) :=
  trace.filterMap Effect.configure_value_list

/-- The text of a write to standard output. -/
def Effect.stdout_text : Effect → Option String
  | Effect.stdout s => some s
  | _ => none

/-- The texts written to standard output, in order. -/
def stdout_texts (trace : List Effect) : List String :=
  trace.filterMap Effect.stdout_text

/-- The data of an `xcb_change_property` request in append mode on the given
property. -/
def Effect.appended_data (property : Nat) : Effect → Option PropData
  | Effect.xcb_change_property mode _ prop _ _ _ data =>
    if mode = XCB_PROP_MODE_APPEND ∧ prop = property then some data else none
  | _ => none

/-- The data appended to the given property by the requests of a trace. -/
def appended_to (property : Nat) (trace : List Effect) : List PropData :=
  trace.filterMap (Effect.appended_data property)

/-! ## The server's view of override-redirect -/

/-- The number of bits set in `mask` at positions below `n`. -/
def bits_below (mask : Nat) : Nat → Nat
  | 0 => 0
  | n + 1 => bits_below mask n + (if mask.testBit n then 1 else 0)

/-- The value a request's value list carries for bit `bit` of its value mask:
the X protocol lists one value per set bit, lowest bit first. -/
def cw_value (mask : Nat) (value_list : List Nat) (bit : Nat) : Option Nat :=
  if mask.testBit bit then value_list[bits_below mask bit]? else none

/-- The effect of one request on the override-redirect attribute of `window`
(`none` while the window does not exist; the attribute is False, 0, when the
creating request does not give it). -/
def override_redirect_step (window : Nat) (attr : Option Nat) : Effect → Option Nat
  | Effect.xcb_create_window _ wid _ _ _ _ _ _ _ _ mask vals =>
    if wid = window then some ((cw_value mask vals 9).getD 0) else attr
  | Effect.xcb_change_window_attributes win mask vals =>
    if win = window then
      match attr, cw_value mask vals 9 with
      | some _, some v => some v
      | _, _ => attr
    else attr
  | _ => attr

/-- The override-redirect attribute of `window` once the server has processed
the requests of a trace. -/
def override_redirect_after (window : Nat) (trace : List Effect) : Option Nat :=
  trace.foldl (override_redirect_step window) none

/-- The request with the override-redirect value of a window creation replaced
(the third value of the list `create_window` sends); other requests unchanged. -/
def with_creation_override (v : Nat) : Effect → Effect
  | Effect.xcb_create_window d wid p x y wd ht b c vis mask vals =>
    Effect.xcb_create_window d wid p x y wd ht b c vis mask (vals.set 2 v)
  | e => e

/-! ## Vocabulary of the statements -/

/-- The option is `-h` or `--help`. -/
def asks_help : GetoptResult → Bool
  | GetoptResult.char c _ => c = 'h'
  | GetoptResult.long i _ => i = LongIndex.help

/-- The option was rejected by `getopt_long` (it returned `?`). -/
def is_rejected : GetoptResult → Bool
  | GetoptResult.char c _ => c = '?'
  | GetoptResult.long _ _ => false

/-- The option is `-c` or `--command`. -/
def gives_command : GetoptResult → Bool
  | GetoptResult.char c _ => c = 'c'
  | GetoptResult.long i _ => i = LongIndex.command

/-- The option is `-b` or `--bottom`. -/
def gives_bottom : GetoptResult → Bool
  | GetoptResult.char c _ => c = 'b'
  | GetoptResult.long i _ => i = LongIndex.bottom

/-- The option is `-u` or `--unmapped`. -/
def gives_unmapped : GetoptResult → Bool
  | GetoptResult.char c _ => c = 'u'
  | GetoptResult.long i _ => i = LongIndex.unmapped

/-- The option is `-p` or `--print`. -/
def gives_print : GetoptResult → Bool
  | GetoptResult.char c _ => c = 'p'
  | GetoptResult.long i _ => i = LongIndex.print

/-- The option is `-i` or `--ignored`. -/
def gives_ignored : GetoptResult → Bool
  | GetoptResult.char c _ => c = 'i'
  | GetoptResult.long i _ => i = LongIndex.ignored

/-- The option is the short `-h`, the one after which the option loop stops. -/
def is_short_h : GetoptResult → Bool
  | GetoptResult.char c _ => c = 'h'
  | GetoptResult.long _ _ => false

/-- The locals after one pass of the body of the option loop. -/
def option_step (w : World) (l : Locals) (r : GetoptResult) : Locals :=
  (main_switch w (getopt_long l r).1 (getopt_long l r).2 r.optarg).1

/-- The five `xcb_intern_atom` requests of `show_window`. -/
def cookies : List Effect :=
  atom_names.map (fun n => Effect.xcb_intern_atom 0 n.utf8ByteSize n)

/-- The `y` that `main` passes on: `y` itself, or with `bottom` set the value
of `height_in_pixels - height - y`. -/
def placed_y (l : Locals) (display_info : xcb_display_info) (natural_height : Nat) : Int :=
  if l.bottom ≠ 0 then
    wrap_int (wrap_int (display_info.s.height_in_pixels - natural_height) - l.y)
  else l.y

/-- The expression `(int)(n * s)` of `main` for a natural dimension `n`. -/
def scaled (n : Nat) (s : Double) : Int :=
  Double.to_int (Double.mul (Double.of_int n) s)

/-- The calls of `main` once `show_window` has returned. -/
def after_show_window (w : World) (l : Locals) (nw nh : Nat) : List Effect :=
  (if l.print_flag ≠ 0 then
      [Effect.stdout (print_window (w.generate_id 1)), Effect.fflush_stdout]
    else []) ++
  (if l.background ≠ 0 then [Effect.daemon 1 0] else []) ++
  event_loop l.command nw nh w.events

/-- The calls that can follow `show_window`: printing the id, `daemon`, drawing,
flushing and `system`. -/
def Effect.in_event_phase : Effect → Bool
  | Effect.stdout _ => true
  | Effect.fflush_stdout => true
  | Effect.daemon _ _ => true
  | Effect.cairo_set_source_surface _ _ => true
  | Effect.cairo_rectangle _ _ _ _ => true
  | Effect.cairo_fill => true
  | Effect.xcb_flush => true
  | Effect.system _ => true
  | _ => false

/-- The calls `show_window` can make. -/
def Effect.in_show_window : Effect → Bool
  | Effect.xcb_intern_atom _ _ _ => true
  | Effect.errx _ _ => true
  | Effect.xcb_change_property _ _ _ _ _ _ _ => true
  | Effect.xcb_change_window_attributes _ _ _ => true
  | Effect.xcb_map_window _ => true
  | Effect.xcb_configure_window _ _ _ => true
  | Effect.xcb_flush => true
  | _ => false

/-- The option is the short option with character `c`. -/
def is_option_char (c : Char) : GetoptResult → Bool
  | GetoptResult.char c1 _ => c1 = c
  | GetoptResult.long _ _ => false

/-- No option asks for help and none is rejected: the run gets past the two
early returns after the option loop. -/
def OptionsAccepted (results : List GetoptResult) : Prop :=
  ∀ r ∈ results, asks_help r = false ∧ is_rejected r = false

/-- The start-up up to the creation of the window succeeds: the first
argument names a png that loads with natural size `nw` by `nh`, the connection
is made, and the screen `scr` advertises a depth of 32. -/
def ReachesWindow (args : List String) (w : World) (nw nh : Nat) (scr : xcb_screen_t) : Prop :=
  (∃ file more, args = file :: more ∧ w.png file = some (nw, nh)) ∧
  w.connection_has_error = false ∧ w.screen = some scr ∧
  ∃ d ∈ scr.allowed_depths, d.depth = 32

/-- Every one of the five atom lookups gets a reply. -/
def AtomsResolved (w : World) : Prop :=
  ∀ i, i < atoms → (w.atom_reply i).isSome = true

/-- The event is a button press: its code is `XCB_BUTTON_PRESS`. -/
def is_button_press (response_type : Nat) : Bool :=
  event_code response_type = XCB_BUTTON_PRESS

/-- Truncation of a rational toward zero. -/
def trunc_toward_zero (q : ℚ) : Int :=
  if 0 ≤ q then ⌊q⌋ else ⌈q⌉

/-- The value of one lowercase hexadecimal digit. -/
def hex_value (c : Char) : Option Nat :=
  if 48 ≤ c.toNat ∧ c.toNat ≤ 57 then some (c.toNat - 48)
  else if 97 ≤ c.toNat ∧ c.toNat ≤ 102 then some (c.toNat - 87)
  else none

/-- Reading a string of lowercase hexadecimal digits as a base-16 number,
`none` if a character is not such a digit. -/
def parse_hex_from (acc : Nat) : List Char → Option Nat
  | [] => some acc
  | c :: cs =>
    match hex_value c with
    | none => none
    | some d => parse_hex_from (16 * acc + d) cs

/-- The `n` low hexadecimal digits of `v`, most significant first. -/
def fixed_hex : Nat → Nat → List Char
  | 0, _ => []
  | n + 1, v => fixed_hex n (v / 16) ++ [hex_digit (v % 16)]

/-- The `(x, y)` of an `xcb_create_window` call. -/
def Effect.created_position : Effect → Option (Int × Int)
  | Effect.xcb_create_window _ _ _ x y _ _ _ _ _ _ _ => some (x, y)
  | _ => none

/-- The `(x, y)` of each `xcb_create_window` call in a trace. -/
def created_positions (trace : List Effect) : List (Int × Int) :=
  trace.filterMap Effect.created_position

/-- The `(width, height)` of an `xcb_create_window` call. -/
def Effect.created_size : Effect → Option (Int × Int)
  | Effect.xcb_create_window _ _ _ _ _ width height _ _ _ _ _ => some (width, height)
  | _ => none

/-- The `(width, height)` of each `xcb_create_window` call in a trace. -/
def created_sizes (trace : List Effect) : List (Int × Int) :=
  trace.filterMap Effect.created_size

/-- The override-redirect value an `xcb_create_window` call carries. -/
def Effect.created_override : Effect → Option (Option Nat)
  | Effect.xcb_create_window _ _ _ _ _ _ _ _ _ _ mask vals => some (cw_value mask vals 9)
  | _ => none

/-- The override-redirect value of each `xcb_create_window` call in a trace. -/
def created_overrides (trace : List Effect) : List (Option Nat) :=
  trace.filterMap Effect.created_override

/-! ## A sample run -/

/-- The screen of the sample run: depths 24, 32 and 1 in that order. -/
def sample_screen : xcb_screen_t :=
  ⟨99, 1080, [⟨24, [⟨33⟩]⟩, ⟨32, [⟨77⟩, ⟨78⟩]⟩, ⟨1, []⟩]⟩

/-- A world for sample runs: `a.png` is 7 by 11 pixels, the server hands out
ids from 0x400000 and atoms from 300, and five events arrive (an expose, two
button presses, one of them sent by another client, and two other events). -/
def sample_world : World where
  atoi := fun a => if a = "5" then 5 else 0
  atof := fun a => if a = "0.25" then Double.fin 1 (-2) else Double.fin 1 0
  png := fun f => if f = "a.png" then some (7, 11) else none
  connection_has_error := false
  screen := some sample_screen
  generate_id := fun n => 4194304 + n
  atom_reply := fun i => some (300 + i)
  events := [12, 4, 132, 5, 140]

/-! ## Option loop -/

theorem code_h : char_code 'h' = 104 := by decide
theorem code_d : char_code 'd' = 100 := by decide
theorem code_i : char_code 'i' = 105 := by decide
theorem code_u : char_code 'u' = 117 := by decide
theorem code_p : char_code 'p' = 112 := by decide
theorem code_b : char_code 'b' = 98 := by decide
theorem code_c : char_code 'c' = 99 := by decide
theorem code_s : char_code 's' = 115 := by decide
theorem code_x : char_code 'x' = 120 := by decide
theorem code_y : char_code 'y' = 121 := by decide
theorem code_t : char_code 't' = 116 := by decide
theorem code_q : char_code '?' = 63 := by decide
/-- `main_switch` with the character constants written as numbers. -/
theorem main_switch_eq (w : World) (l : Locals) (o : Int) (a : String) :
    main_switch w l o a =
      if o = 104 then ({ l with help_flag := 1 }, -1)
      else if o = 100 then ({ l with background := 1 }, o)
      else if o = 105 then ({ l with dock := 1 }, o)
      else if o = 117 then ({ l with unmapped := 1 }, o)
      else if o = 112 then ({ l with print_flag := 1 }, o)
      else if o = 98 then ({ l with bottom := 1 }, o)
      else if o = 99 then ({ l with command := some (a ++ " &") }, o)
      else if o = 115 then ({ l with s := w.atof a }, o)
      else if o = 120 then ({ l with x := w.atoi a }, o)
      else if o = 121 then ({ l with y := w.atoi a }, o)
      else if o = 116 then ({ l with title := a }, o)
      else if o = 63 then ({ l with error_flag := 1 }, o)
      else (l, o) := by
  unfold main_switch
  rw [code_h, code_d, code_i, code_u, code_p, code_b, code_c, code_s, code_x, code_y, code_t,
    code_q]


theorem main_switch_cases (o : Int) :
    o = 104 ∨ o = 100 ∨ o = 105 ∨ o = 117 ∨ o = 112 ∨ o = 98 ∨ o = 99 ∨ o = 115 ∨ o = 120 ∨
    o = 121 ∨ o = 116 ∨ o = 63 ∨
    (o ≠ 104 ∧ o ≠ 100 ∧ o ≠ 105 ∧ o ≠ 117 ∧ o ≠ 112 ∧ o ≠ 98 ∧ o ≠ 99 ∧ o ≠ 115 ∧ o ≠ 120 ∧
      o ≠ 121 ∧ o ≠ 116 ∧ o ≠ 63) := by
  omega

theorem main_switch_snd (w : World) (l : Locals) (o : Int) (a : String) :
    (main_switch w l o a).2 = if o = 104 then -1 else o := by
  rw [main_switch_eq]
  rcases main_switch_cases o with h | h | h | h | h | h | h | h | h | h | h | h | h
  iterate 12 (subst h; rfl)
  obtain ⟨n1, n2, n3, n4, n5, n6, n7, n8, n9, n10, n11, n12⟩ := h
  rw [if_neg n1, if_neg n2, if_neg n3, if_neg n4, if_neg n5, if_neg n6, if_neg n7, if_neg n8,
    if_neg n9, if_neg n10, if_neg n11, if_neg n12, if_neg n1]

theorem main_switch_help_flag (w : World) (l : Locals) (o : Int) (a : String) :
    (main_switch w l o a).1.help_flag = if o = 104 then 1 else l.help_flag := by
  rw [main_switch_eq]
  rcases main_switch_cases o with h | h | h | h | h | h | h | h | h | h | h | h | h
  iterate 12 (subst h; rfl)
  obtain ⟨n1, n2, n3, n4, n5, n6, n7, n8, n9, n10, n11, n12⟩ := h
  rw [if_neg n1, if_neg n2, if_neg n3, if_neg n4, if_neg n5, if_neg n6, if_neg n7, if_neg n8,
    if_neg n9, if_neg n10, if_neg n11, if_neg n12, if_neg n1]

theorem main_switch_error_flag (w : World) (l : Locals) (o : Int) (a : String) :
    (main_switch w l o a).1.error_flag = if o = 63 then 1 else l.error_flag := by
  rw [main_switch_eq]
  rcases main_switch_cases o with h | h | h | h | h | h | h | h | h | h | h | h | h
  iterate 12 (subst h; rfl)
  obtain ⟨n1, n2, n3, n4, n5, n6, n7, n8, n9, n10, n11, n12⟩ := h
  rw [if_neg n1, if_neg n2, if_neg n3, if_neg n4, if_neg n5, if_neg n6, if_neg n7, if_neg n8,
    if_neg n9, if_neg n10, if_neg n11, if_neg n12, if_neg n12]

theorem main_switch_command (w : World) (l : Locals) (o : Int) (a : String) :
    (main_switch w l o a).1.command = if o = 99 then some (a ++ " &") else l.command := by
  rw [main_switch_eq]
  rcases main_switch_cases o with h | h | h | h | h | h | h | h | h | h | h | h | h
  iterate 12 (subst h; rfl)
  obtain ⟨n1, n2, n3, n4, n5, n6, n7, n8, n9, n10, n11, n12⟩ := h
  rw [if_neg n1, if_neg n2, if_neg n3, if_neg n4, if_neg n5, if_neg n6, if_neg n7, if_neg n8,
    if_neg n9, if_neg n10, if_neg n11, if_neg n12, if_neg n7]

theorem main_switch_bottom (w : World) (l : Locals) (o : Int) (a : String) :
    (main_switch w l o a).1.bottom = if o = 98 then 1 else l.bottom := by
  rw [main_switch_eq]
  rcases main_switch_cases o with h | h | h | h | h | h | h | h | h | h | h | h | h
  iterate 12 (subst h; rfl)
  obtain ⟨n1, n2, n3, n4, n5, n6, n7, n8, n9, n10, n11, n12⟩ := h
  rw [if_neg n1, if_neg n2, if_neg n3, if_neg n4, if_neg n5, if_neg n6, if_neg n7, if_neg n8,
    if_neg n9, if_neg n10, if_neg n11, if_neg n12, if_neg n6]

theorem main_switch_unmapped (w : World) (l : Locals) (o : Int) (a : String) :
    (main_switch w l o a).1.unmapped = if o = 117 then 1 else l.unmapped := by
  rw [main_switch_eq]
  rcases main_switch_cases o with h | h | h | h | h | h | h | h | h | h | h | h | h
  iterate 12 (subst h; rfl)
  obtain ⟨n1, n2, n3, n4, n5, n6, n7, n8, n9, n10, n11, n12⟩ := h
  rw [if_neg n1, if_neg n2, if_neg n3, if_neg n4, if_neg n5, if_neg n6, if_neg n7, if_neg n8,
    if_neg n9, if_neg n10, if_neg n11, if_neg n12, if_neg n4]

theorem main_switch_print_flag (w : World) (l : Locals) (o : Int) (a : String) :
    (main_switch w l o a).1.print_flag = if o = 112 then 1 else l.print_flag := by
  rw [main_switch_eq]
  rcases main_switch_cases o with h | h | h | h | h | h | h | h | h | h | h | h | h
  iterate 12 (subst h; rfl)
  obtain ⟨n1, n2, n3, n4, n5, n6, n7, n8, n9, n10, n11, n12⟩ := h
  rw [if_neg n1, if_neg n2, if_neg n3, if_neg n4, if_neg n5, if_neg n6, if_neg n7, if_neg n8,
    if_neg n9, if_neg n10, if_neg n11, if_neg n12, if_neg n5]

theorem main_switch_dock (w : World) (l : Locals) (o : Int) (a : String) :
    (main_switch w l o a).1.dock = if o = 105 then 1 else l.dock := by
  rw [main_switch_eq]
  rcases main_switch_cases o with h | h | h | h | h | h | h | h | h | h | h | h | h
  iterate 12 (subst h; rfl)
  obtain ⟨n1, n2, n3, n4, n5, n6, n7, n8, n9, n10, n11, n12⟩ := h
  rw [if_neg n1, if_neg n2, if_neg n3, if_neg n4, if_neg n5, if_neg n6, if_neg n7, if_neg n8,
    if_neg n9, if_neg n10, if_neg n11, if_neg n12, if_neg n3]


theorem char_code_inj (c d : Char) : char_code c = char_code d ↔ c = d := by
  constructor
  · intro h
    have h2 : c.toNat = d.toNat := by unfold char_code at h; exact_mod_cast h
    rw [← Char.ofNat_toNat c, h2, Char.ofNat_toNat]
  · rintro rfl; rfl

theorem char_code_nonneg (c : Char) : 0 ≤ char_code c := by
  unfold char_code; exact Int.natCast_nonneg _

theorem code_eq_h (c : Char) : char_code c = 104 ↔ c = 'h' := by
  rw [← code_h, char_code_inj]
theorem code_eq_q (c : Char) : char_code c = 63 ↔ c = '?' := by
  rw [← code_q, char_code_inj]
theorem code_eq_c (c : Char) : char_code c = 99 ↔ c = 'c' := by
  rw [← code_c, char_code_inj]
theorem code_eq_b (c : Char) : char_code c = 98 ↔ c = 'b' := by
  rw [← code_b, char_code_inj]
theorem code_eq_u (c : Char) : char_code c = 117 ↔ c = 'u' := by
  rw [← code_u, char_code_inj]
theorem code_eq_p (c : Char) : char_code c = 112 ↔ c = 'p' := by
  rw [← code_p, char_code_inj]
theorem code_eq_i (c : Char) : char_code c = 105 ↔ c = 'i' := by
  rw [← code_i, char_code_inj]

/-- What `getopt_long` does for each entry of `long_options`. -/
theorem getopt_long_long (l : Locals) (i : LongIndex) (a : String) :
    getopt_long l (GetoptResult.long i a) =
      match i with
      | LongIndex.help => ({ l with help_flag := 1 }, 0)
      | LongIndex.ignored => ({ l with dock := 1 }, 0)
      | LongIndex.daemonise => ({ l with background := 1 }, 0)
      | LongIndex.bottom => ({ l with bottom := 1 }, 0)
      | LongIndex.command => (l, 99)
      | LongIndex.title => (l, 116)
      | LongIndex.unmapped => ({ l with unmapped := 1 }, 0)
      | LongIndex.print => ({ l with print_flag := 1 }, 0) := by
  cases i
  case command => show (l, char_code 'c') = (l, 99); rw [code_c]
  case title => show (l, char_code 't') = (l, 116); rw [code_t]
  all_goals rfl

theorem option_step_help_flag (w : World) (l : Locals) (r : GetoptResult) :
    (option_step w l r).help_flag = if asks_help r = true then 1 else l.help_flag := by
  cases r with
  | char c a =>
    simp only [option_step, getopt_long, GetoptResult.optarg, main_switch_help_flag, code_eq_h,
      asks_help, decide_eq_true_eq]
  | long i a =>
    rw [option_step, getopt_long_long, main_switch_help_flag]
    cases i <;> simp [asks_help]

theorem option_step_error_flag (w : World) (l : Locals) (r : GetoptResult) :
    (option_step w l r).error_flag = if is_rejected r = true then 1 else l.error_flag := by
  cases r with
  | char c a =>
    simp only [option_step, getopt_long, GetoptResult.optarg, main_switch_error_flag, code_eq_q,
      is_rejected, decide_eq_true_eq]
  | long i a =>
    rw [option_step, getopt_long_long, main_switch_error_flag]
    cases i <;> simp [is_rejected]

theorem option_step_command (w : World) (l : Locals) (r : GetoptResult) :
    (option_step w l r).command =
      if gives_command r = true then some (r.optarg ++ " &") else l.command := by
  cases r with
  | char c a =>
    simp only [option_step, getopt_long, GetoptResult.optarg, main_switch_command, code_eq_c,
      gives_command, decide_eq_true_eq]
  | long i a =>
    rw [option_step, getopt_long_long, main_switch_command]
    cases i <;> simp [gives_command, GetoptResult.optarg]

theorem option_step_bottom (w : World) (l : Locals) (r : GetoptResult) :
    (option_step w l r).bottom = if gives_bottom r = true then 1 else l.bottom := by
  cases r with
  | char c a =>
    simp only [option_step, getopt_long, GetoptResult.optarg, main_switch_bottom, code_eq_b,
      gives_bottom, decide_eq_true_eq]
  | long i a =>
    rw [option_step, getopt_long_long, main_switch_bottom]
    cases i <;> simp [gives_bottom]

theorem option_step_unmapped (w : World) (l : Locals) (r : GetoptResult) :
    (option_step w l r).unmapped = if gives_unmapped r = true then 1 else l.unmapped := by
  cases r with
  | char c a =>
    simp only [option_step, getopt_long, GetoptResult.optarg, main_switch_unmapped, code_eq_u,
      gives_unmapped, decide_eq_true_eq]
  | long i a =>
    rw [option_step, getopt_long_long, main_switch_unmapped]
    cases i <;> simp [gives_unmapped]

theorem option_step_print_flag (w : World) (l : Locals) (r : GetoptResult) :
    (option_step w l r).print_flag = if gives_print r = true then 1 else l.print_flag := by
  cases r with
  | char c a =>
    simp only [option_step, getopt_long, GetoptResult.optarg, main_switch_print_flag, code_eq_p,
      gives_print, decide_eq_true_eq]
  | long i a =>
    rw [option_step, getopt_long_long, main_switch_print_flag]
    cases i <;> simp [gives_print]

theorem option_step_dock (w : World) (l : Locals) (r : GetoptResult) :
    (option_step w l r).dock = if gives_ignored r = true then 1 else l.dock := by
  cases r with
  | char c a =>
    simp only [option_step, getopt_long, GetoptResult.optarg, main_switch_dock, code_eq_i,
      gives_ignored, decide_eq_true_eq]
  | long i a =>
    rw [option_step, getopt_long_long, main_switch_dock]
    cases i <;> simp [gives_ignored]

/-- The loop stops after a pass exactly when the option character is `h`. -/
theorem option_loop_cons (w : World) (l : Locals) (r : GetoptResult) (rs : List GetoptResult) :
    option_loop w l (r :: rs) =
      if is_short_h r = true then option_step w l r
      else option_loop w (option_step w l r) rs := by
  rw [option_loop]
  simp only [main_switch_snd]
  cases r with
  | char c a =>
    by_cases hc : c = 'h'
    · subst hc
      have h1 : (getopt_long l (GetoptResult.char 'h' a)).2 = 104 := by
        show char_code 'h' = 104
        exact code_h
      rw [h1]
      simp [option_step, is_short_h, h1]
    · have h1 : ¬ (getopt_long l (GetoptResult.char c a)).2 = 104 := by
        show ¬ char_code c = 104
        rw [code_eq_h]; exact hc
      have h2 : ¬ (getopt_long l (GetoptResult.char c a)).2 = -1 := by
        show ¬ char_code c = -1
        have := char_code_nonneg c
        omega
      rw [if_neg h1, if_neg h2]
      simp [is_short_h, hc, option_step]
  | long i a =>
    rw [getopt_long_long]
    cases i <;> simp [option_step, getopt_long_long, is_short_h]

theorem asks_help_of_short_h (r : GetoptResult) (h : is_short_h r = true) :
    asks_help r = true := by
  cases r with
  | char c a => simpa [is_short_h, asks_help] using h
  | long i a => simp [is_short_h] at h

/-- When no option is `-h` the loop is a fold of its body over the options. -/
theorem option_loop_eq_foldl (w : World) (rs : List GetoptResult) :
    ∀ l : Locals, (∀ r ∈ rs, is_short_h r = false) →
      option_loop w l rs = rs.foldl (option_step w) l := by
  induction rs with
  | nil => intro l _; rfl
  | cons r rs ih =>
    intro l h
    have hr : is_short_h r = false := h r (List.mem_cons_self _ _)
    rw [option_loop_cons, hr]
    simp only [Bool.false_eq_true, if_false, List.foldl_cons]
    exact ih _ (fun r1 h1 => h r1 (List.mem_cons_of_mem _ h1))

/-- A field that each pass either sets to 1 or leaves alone ends as 1 exactly
when some pass set it. -/
theorem foldl_flag (w : World) (f : Locals → Int) (g : GetoptResult → Bool)
    (hstep : ∀ l r, f (option_step w l r) = if g r = true then 1 else f l)
    (rs : List GetoptResult) :
    ∀ l : Locals, f (rs.foldl (option_step w) l) = if rs.any g = true then 1 else f l := by
  induction rs with
  | nil => intro l; simp
  | cons r rs ih =>
    intro l
    rw [List.foldl_cons, ih, hstep]
    by_cases h1 : rs.any g = true
    · simp [h1]
    · by_cases h2 : g r = true
      · simp [h1, h2]
      · simp [h1, h2]

theorem not_short_h_of_accepted (rs : List GetoptResult) (h : OptionsAccepted rs) :
    ∀ r ∈ rs, is_short_h r = false := by
  intro r hr
  have h1 := (h r hr).1
  cases hs : is_short_h r
  · rfl
  · rw [asks_help_of_short_h r hs] at h1
    cases h1

theorem any_eq_false_of_forall (g : GetoptResult → Bool) (rs : List GetoptResult)
    (h : ∀ r ∈ rs, g r = false) : rs.any g = false := by
  rw [List.any_eq_false]
  intro r hr
  rw [h r hr]
  simp

/-- Accepted options leave `help_flag` and `error_flag` at 0. -/
theorem accepted_flags (w : World) (rs : List GetoptResult) (h : OptionsAccepted rs) :
    (option_loop w {} rs).help_flag = 0 ∧ (option_loop w {} rs).error_flag = 0 := by
  rw [option_loop_eq_foldl w rs _ (not_short_h_of_accepted rs h)]
  constructor
  · rw [foldl_flag w Locals.help_flag asks_help (option_step_help_flag w) rs,
      any_eq_false_of_forall asks_help rs (fun r hr => (h r hr).1)]
    rfl
  · rw [foldl_flag w Locals.error_flag is_rejected (option_step_error_flag w) rs,
      any_eq_false_of_forall is_rejected rs (fun r hr => (h r hr).2)]
    rfl

/-- A flag among accepted options: 1 when its option is given, else 0. -/
theorem accepted_flag_value (w : World) (rs : List GetoptResult) (h : OptionsAccepted rs)
    (f : Locals → Int) (g : GetoptResult → Bool)
    (hstep : ∀ l r, f (option_step w l r) = if g r = true then 1 else f l) :
    f (option_loop w {} rs) = if rs.any g = true then 1 else f {} := by
  rw [option_loop_eq_foldl w rs _ (not_short_h_of_accepted rs h), foldl_flag w f g hstep rs]

/-- A property of the locals that every pass keeps holds at the end of the loop. -/
theorem option_loop_keeps (w : World) (P : Locals → Prop) (rs : List GetoptResult) :
    ∀ l : Locals, (∀ l1, ∀ r ∈ rs, P l1 → P (option_step w l1 r)) → P l →
      P (option_loop w l rs) := by
  induction rs with
  | nil => intro l _ h; exact h
  | cons r rs ih =>
    intro l hstep h
    have h1 : P (option_step w l r) := hstep l r (List.mem_cons_self _ _) h
    rw [option_loop_cons]
    split
    · exact h1
    · exact ih _ (fun l1 r1 hr1 => hstep l1 r1 (List.mem_cons_of_mem _ hr1)) h1

theorem option_loop_help_kept (w : World) (rs : List GetoptResult) (l : Locals)
    (h : l.help_flag = 1) : (option_loop w l rs).help_flag = 1 := by
  refine option_loop_keeps w (fun l => l.help_flag = 1) rs l ?_ h
  intro l1 r _ h1
  show (option_step w l1 r).help_flag = 1
  rw [option_step_help_flag, h1]
  simp

theorem option_loop_unmapped_kept (w : World) (rs : List GetoptResult) (l : Locals)
    (h : l.unmapped = 1) : (option_loop w l rs).unmapped = 1 := by
  refine option_loop_keeps w (fun l => l.unmapped = 1) rs l ?_ h
  intro l1 r _ h1
  show (option_step w l1 r).unmapped = 1
  rw [option_step_unmapped, h1]
  simp

/-- Once an option asks for help, `help_flag` is 1 after the loop. -/
theorem option_loop_help (w : World) (rs : List GetoptResult) :
    ∀ l : Locals, (∃ r ∈ rs, asks_help r = true) → (option_loop w l rs).help_flag = 1 := by
  induction rs with
  | nil => intro l h; obtain ⟨r, hr, _⟩ := h; cases hr
  | cons r rs ih =>
    intro l h
    rw [option_loop_cons]
    by_cases hr : asks_help r = true
    · have h1 : (option_step w l r).help_flag = 1 := by
        rw [option_step_help_flag, if_pos hr]
      split
      · exact h1
      · exact option_loop_help_kept w rs _ h1
    · have hs : is_short_h r = false := by
        cases hs : is_short_h r
        · rfl
        · exact absurd (asks_help_of_short_h r hs) hr
      rw [hs]
      simp only [Bool.false_eq_true, if_false]
      apply ih
      obtain ⟨r1, hr1, h1⟩ := h
      rcases List.mem_cons.mp hr1 with h2 | h2
      · subst h2; exact absurd h1 hr
      · exact ⟨r1, h2, h1⟩

/-- Once `-u` or `--unmapped` is among the options, after the loop either
`unmapped` is 1 or (an earlier `-h` stopped the loop) `help_flag` is 1. -/
theorem option_loop_unmapped (w : World) (rs : List GetoptResult) :
    ∀ l : Locals, (∃ r ∈ rs, gives_unmapped r = true) →
      (option_loop w l rs).unmapped = 1 ∨ (option_loop w l rs).help_flag = 1 := by
  induction rs with
  | nil => intro l h; obtain ⟨r, hr, _⟩ := h; cases hr
  | cons r rs ih =>
    intro l h
    rw [option_loop_cons]
    by_cases hs : is_short_h r = true
    · rw [if_pos hs]
      right
      rw [option_step_help_flag, if_pos (asks_help_of_short_h r hs)]
    · rw [if_neg hs]
      by_cases hr : gives_unmapped r = true
      · left
        apply option_loop_unmapped_kept
        rw [option_step_unmapped, if_pos hr]
      · apply ih
        obtain ⟨r1, hr1, h1⟩ := h
        rcases List.mem_cons.mp hr1 with h2 | h2
        · subst h2; exact absurd h1 hr
        · exact ⟨r1, h2, h1⟩

/-- Without `-c` and `--command` the loop leaves `command` as it was. -/
theorem option_loop_command_kept (w : World) (rs : List GetoptResult) (l : Locals)
    (h : ∀ r ∈ rs, gives_command r = false) : (option_loop w l rs).command = l.command := by
  refine option_loop_keeps w (fun l1 => l1.command = l.command) rs l ?_ rfl
  intro l1 r hr h1
  show (option_step w l1 r).command = l.command
  rw [option_step_command, h r hr, h1]
  simp

/-- Among accepted options the last `-c` or `--command` decides `command`. -/
theorem option_loop_command_last (w : World) (before after : List GetoptResult)
    (c : GetoptResult) (ha : OptionsAccepted (before ++ c :: after))
    (hc : gives_command c = true) (hafter : ∀ r ∈ after, gives_command r = false) :
    (option_loop w {} (before ++ c :: after)).command = some (c.optarg ++ " &") := by
  have hs := not_short_h_of_accepted _ ha
  rw [option_loop_eq_foldl w _ _ hs, List.foldl_append, List.foldl_cons]
  have hs2 : ∀ r ∈ after, is_short_h r = false := fun r hr =>
    hs r (List.mem_append_right _ (List.mem_cons_of_mem _ hr))
  rw [← option_loop_eq_foldl w after _ hs2, option_loop_command_kept w after _ hafter,
    option_step_command, if_pos hc]

/-! ## The dock flag does not influence the other locals -/

theorem main_switch_with_dock (w : World) (l : Locals) (o : Int) (a : String) :
    main_switch w { l with dock := 1 } o a =
      ({ (main_switch w l o a).1 with dock := 1 }, (main_switch w l o a).2) := by
  rw [main_switch_eq, main_switch_eq]
  rcases main_switch_cases o with h | h | h | h | h | h | h | h | h | h | h | h | h
  iterate 12 (subst h; rfl)
  obtain ⟨n1, n2, n3, n4, n5, n6, n7, n8, n9, n10, n11, n12⟩ := h
  rw [if_neg n1, if_neg n2, if_neg n3, if_neg n4, if_neg n5, if_neg n6, if_neg n7, if_neg n8,
    if_neg n9, if_neg n10, if_neg n11, if_neg n12, if_neg n1, if_neg n2, if_neg n3, if_neg n4,
    if_neg n5, if_neg n6, if_neg n7, if_neg n8, if_neg n9, if_neg n10, if_neg n11, if_neg n12]

theorem option_step_with_dock (w : World) (l : Locals) (r : GetoptResult) :
    option_step w { l with dock := 1 } r = { option_step w l r with dock := 1 } := by
  cases r with
  | char c a =>
    show (main_switch w { l with dock := 1 } (char_code c) a).1 = _
    rw [main_switch_with_dock]
    rfl
  | long i a =>
    rw [option_step, option_step, getopt_long_long, getopt_long_long]
    cases i
    case help => exact congrArg Prod.fst (main_switch_with_dock w { l with help_flag := 1 } 0 a)
    case ignored => exact congrArg Prod.fst (main_switch_with_dock w { l with dock := 1 } 0 a)
    case daemonise =>
      exact congrArg Prod.fst (main_switch_with_dock w { l with background := 1 } 0 a)
    case bottom => exact congrArg Prod.fst (main_switch_with_dock w { l with bottom := 1 } 0 a)
    case command => exact congrArg Prod.fst (main_switch_with_dock w l 99 a)
    case title => exact congrArg Prod.fst (main_switch_with_dock w l 116 a)
    case unmapped =>
      exact congrArg Prod.fst (main_switch_with_dock w { l with unmapped := 1 } 0 a)
    case print => exact congrArg Prod.fst (main_switch_with_dock w { l with print_flag := 1 } 0 a)

theorem option_loop_with_dock (w : World) (rs : List GetoptResult) :
    ∀ l : Locals,
      option_loop w { l with dock := 1 } rs = { option_loop w l rs with dock := 1 } := by
  induction rs with
  | nil => intro l; rfl
  | cons r rs ih =>
    intro l
    rw [option_loop_cons, option_loop_cons, option_step_with_dock]
    split
    · rfl
    · exact ih _

/-! ## Visual lookup -/

theorem visual_loop_eq_find (ds : List xcb_depth_t) :
    get_alpha_visualtype_loop ds =
      (ds.find? (fun d => decide (d.depth = 32))).map xcb_depth_t.visuals := by
  induction ds with
  | nil => rfl
  | cons d rest ih =>
    by_cases h : d.depth = 32
    · simp [get_alpha_visualtype_loop, h]
    · simp [get_alpha_visualtype_loop, h, ih]

theorem visual_loop_none_iff (ds : List xcb_depth_t) :
    get_alpha_visualtype_loop ds = none ↔ ∀ d ∈ ds, d.depth ≠ 32 := by
  induction ds with
  | nil => simp [get_alpha_visualtype_loop]
  | cons d rest ih =>
    by_cases h : d.depth = 32
    · simp [get_alpha_visualtype_loop, h]
    · simp [get_alpha_visualtype_loop, h, ih]

theorem visual_loop_split (before after : List xcb_depth_t) (d : xcb_depth_t)
    (hb : ∀ b ∈ before, b.depth ≠ 32) (hd : d.depth = 32) :
    get_alpha_visualtype_loop (before ++ d :: after) = some d.visuals := by
  induction before with
  | nil => simp [get_alpha_visualtype_loop, hd]
  | cons b rest ih =>
    have h1 : b.depth ≠ 32 := hb b (List.mem_cons_self _ _)
    have h2 : ∀ b1 ∈ rest, b1.depth ≠ 32 := fun b1 hb1 => hb b1 (List.mem_cons_of_mem _ hb1)
    simp [get_alpha_visualtype_loop, h1, ih h2]

theorem visual_found (scr : xcb_screen_t) (h : ∃ d ∈ scr.allowed_depths, d.depth = 32) :
    ∃ v, get_alpha_visualtype scr = some v := by
  cases hv : get_alpha_visualtype scr with
  | some v => exact ⟨v, rfl⟩
  | none =>
    obtain ⟨d, hd, h32⟩ := h
    exact absurd h32 ((visual_loop_none_iff _).mp hv d hd)

/-! ## Start-up -/

theorem init_of_visual (w : World) (scr : xcb_screen_t) (v : List xcb_visualtype_t)
    (hc : w.connection_has_error = false) (hs : w.screen = some scr)
    (hv : get_alpha_visualtype scr = some v) :
    init w = ([Effect.xcb_connect], some ⟨scr, v⟩) := by
  simp [init, hc, hs, hv]

/-- With accepted options and a start-up that reaches the window, `main` loads
the image, connects and goes on to `main_display`. -/
theorem main_of_reaches (argv0 : String) (results : List GetoptResult) (args : List String)
    (w : World) (nw nh : Nat) (scr : xcb_screen_t)
    (ha : OptionsAccepted results) (hr : ReachesWindow args w nw nh scr) :
    ∃ file more v, args = file :: more ∧ get_alpha_visualtype scr = some v ∧
      main argv0 results args w =
        ⟨(if more ≠ [] then [Effect.stdout "warning: unexpected argument\n"] else []) ++
            [Effect.cairo_image_surface_create_from_png file] ++ [Effect.xcb_connect] ++
            main_display w (option_loop w {} results) ⟨scr, v⟩ nw nh, 1⟩ := by
  obtain ⟨⟨file, more, hargs, hpng⟩, hc, hs, hd⟩ := hr
  obtain ⟨v, hv⟩ := visual_found scr hd
  obtain ⟨h1, h2⟩ := accepted_flags w results ha
  refine ⟨file, more, v, hargs, hv, ?_⟩
  subst hargs
  simp only [main, main_after_options, h1, h2, hpng, init_of_visual w scr v hc hs hv]
  simp

/-! ## Atom replies -/

theorem atoms_eq : atoms = 5 := by decide

theorem atom_replies_of_resolved (w : World) (h : AtomsResolved w) :
    ∃ a0 a1 a2 a3 a4, atom_replies w 0 atoms = some [a0, a1, a2, a3, a4] := by
  have h0 := h 0 (by rw [atoms_eq]; omega)
  have h1 := h 1 (by rw [atoms_eq]; omega)
  have h2 := h 2 (by rw [atoms_eq]; omega)
  have h3 := h 3 (by rw [atoms_eq]; omega)
  have h4 := h 4 (by rw [atoms_eq]; omega)
  obtain ⟨a0, e0⟩ := Option.isSome_iff_exists.mp h0
  obtain ⟨a1, e1⟩ := Option.isSome_iff_exists.mp h1
  obtain ⟨a2, e2⟩ := Option.isSome_iff_exists.mp h2
  obtain ⟨a3, e3⟩ := Option.isSome_iff_exists.mp h3
  obtain ⟨a4, e4⟩ := Option.isSome_iff_exists.mp h4
  refine ⟨a0, a1, a2, a3, a4, ?_⟩
  rw [atoms_eq]
  simp [atom_replies, e0, e1, e2, e3, e4]

/-- `show_window` when the atoms are resolved to `a0 .. a4`. -/
theorem show_window_of_atoms (w : World) (window : Nat) (x y : Int) (title : String)
    (should_map : Int) (a0 a1 a2 a3 a4 : Nat)
    (h : atom_replies w 0 atoms = some [a0, a1, a2, a3, a4]) :
    show_window w window x y title should_map =
      (cookies ++
        [Effect.xcb_change_property XCB_PROP_MODE_REPLACE window a0 XCB_ATOM_ATOM 32 1
            (PropData.words [a1]),
         Effect.xcb_change_property XCB_PROP_MODE_APPEND window a2 XCB_ATOM_ATOM 32 2
            (PropData.words [a3, a4]),
         Effect.xcb_change_property XCB_PROP_MODE_REPLACE window a4 XCB_ATOM_CARDINAL 32 1
            (PropData.words [to_uint32 (-1)]),
         Effect.xcb_change_property XCB_PROP_MODE_REPLACE window XCB_ATOM_WM_NAME
            XCB_ATOM_STRING 8 title.utf8ByteSize (PropData.bytes title),
         Effect.xcb_change_window_attributes window XCB_CW_OVERRIDE_REDIRECT [1]] ++
        (if should_map ≠ 0 then [Effect.xcb_map_window window] else []) ++
        [Effect.xcb_configure_window window (XCB_CONFIG_WINDOW_X ||| XCB_CONFIG_WINDOW_Y)
            [to_uint32 x, to_uint32 y],
         Effect.xcb_flush],
       true) := by
  simp only [show_window, h, cookies]
  rfl

/-! ## The shape of a run -/

/-- `main_display` as the sequence of its four stages. -/
theorem main_display_eq (w : World) (l : Locals) (di : xcb_display_info) (nw nh : Nat) :
    main_display w l di nw nh =
      (create_window w di l.x (placed_y l di nh) (scaled nw l.s) (scaled nh l.s) l.dock).1 ++
      [Effect.cairo_xcb_surface_create (w.generate_id 1) (scaled nw l.s) (scaled nh l.s),
        Effect.cairo_create, Effect.cairo_scale l.s l.s] ++
      (show_window w (w.generate_id 1) l.x (placed_y l di nh) l.title
          (if l.unmapped ≠ 0 then 0 else 1)).1 ++
      (if (show_window w (w.generate_id 1) l.x (placed_y l di nh) l.title
          (if l.unmapped ≠ 0 then 0 else 1)).2 = false then []
        else after_show_window w l nw nh) := by
  unfold main_display placed_y scaled after_show_window
  simp only [create_window]
  generalize show_window w (w.generate_id 1) l.x
    (if l.bottom ≠ 0 then wrap_int (wrap_int (di.s.height_in_pixels - nh) - l.y) else l.y)
    l.title (if l.unmapped ≠ 0 then 0 else 1) = sw
  obtain ⟨t, b⟩ := sw
  cases b <;> simp

theorem show_window_cases (w : World) (window : Nat) (x y : Int) (title : String)
    (should_map : Int) :
    show_window w window x y title should_map =
        (cookies ++ [Effect.errx 1 "failed to find atoms"], false) ∨
    ∃ a0 a1 a2 a3 a4,
      show_window w window x y title should_map =
      (cookies ++
        [Effect.xcb_change_property XCB_PROP_MODE_REPLACE window a0 XCB_ATOM_ATOM 32 1
            (PropData.words [a1]),
         Effect.xcb_change_property XCB_PROP_MODE_APPEND window a2 XCB_ATOM_ATOM 32 2
            (PropData.words [a3, a4]),
         Effect.xcb_change_property XCB_PROP_MODE_REPLACE window a4 XCB_ATOM_CARDINAL 32 1
            (PropData.words [to_uint32 (-1)]),
         Effect.xcb_change_property XCB_PROP_MODE_REPLACE window XCB_ATOM_WM_NAME
            XCB_ATOM_STRING 8 title.utf8ByteSize (PropData.bytes title),
         Effect.xcb_change_window_attributes window XCB_CW_OVERRIDE_REDIRECT [1]] ++
        (if should_map ≠ 0 then [Effect.xcb_map_window window] else []) ++
        [Effect.xcb_configure_window window (XCB_CONFIG_WINDOW_X ||| XCB_CONFIG_WINDOW_Y)
            [to_uint32 x, to_uint32 y],
         Effect.xcb_flush],
       true) := by
  cases h : atom_replies w 0 atoms with
  | none =>
    left
    simp only [show_window, h, cookies]
  | some atom_list =>
    right
    have h5 : ∃ a0 a1 a2 a3 a4, atom_list = [a0, a1, a2, a3, a4] := by
      rw [atoms_eq] at h
      simp only [atom_replies] at h
      cases e0 : w.atom_reply 0 with
      | none => simp [e0] at h
      | some a0 =>
      cases e1 : w.atom_reply 1 with
      | none => simp [e0, e1] at h
      | some a1 =>
      cases e2 : w.atom_reply 2 with
      | none => simp [e0, e1, e2] at h
      | some a2 =>
      cases e3 : w.atom_reply 3 with
      | none => simp [e0, e1, e2, e3] at h
      | some a3 =>
      cases e4 : w.atom_reply 4 with
      | none => simp [e0, e1, e2, e3, e4] at h
      | some a4 =>
      simp [e0, e1, e2, e3, e4] at h
      exact ⟨a0, a1, a2, a3, a4, h.symm⟩
    obtain ⟨a0, a1, a2, a3, a4, h6⟩ := h5
    subst h6
    exact ⟨a0, a1, a2, a3, a4, show_window_of_atoms w window x y title should_map a0 a1 a2 a3 a4 h⟩

/-! ## Calls to `system` -/

theorem system_calls_append (a b : List Effect) :
    system_calls (a ++ b) = system_calls a ++ system_calls b := by
  simp [system_calls]

theorem system_calls_cookies : system_calls cookies = [] := by decide

theorem system_calls_usage (name : String) : system_calls (usage name) = [] := by
  simp [system_calls, usage, Effect.system_command]

theorem system_calls_init (w : World) : system_calls (init w).1 = [] := by
  unfold init
  split
  · simp [system_calls, Effect.system_command]
  · split
    · simp [system_calls, Effect.system_command]
    · split <;> simp [system_calls, Effect.system_command]

theorem system_calls_show_window (w : World) (window : Nat) (x y : Int) (title : String)
    (should_map : Int) : system_calls (show_window w window x y title should_map).1 = [] := by
  rcases show_window_cases w window x y title should_map with h | ⟨a0, a1, a2, a3, a4, h⟩
  · rw [h]
    simp only [system_calls_append, system_calls_cookies]
    rfl
  · rw [h]
    simp only [system_calls_append, system_calls_cookies]
    split <;> rfl

theorem system_calls_event_loop (command : Option String) (nw nh : Nat) (events : List Nat) :
    system_calls (event_loop command nw nh events) =
      match command with
      | none => []
      | some c => List.replicate (events.countP is_button_press) c := by
  induction events with
  | nil => cases command <;> rfl
  | cons rt evs ih =>
    simp only [event_loop, system_calls_append, ih]
    have hd : system_calls (draw nw nh ++ [Effect.xcb_flush]) = [] := rfl
    by_cases hb : event_code rt = XCB_BUTTON_PRESS
    · have hx : ¬ event_code rt = XCB_EXPOSE := by
        rw [hb]; decide
      have hp : is_button_press rt = true := by simp [is_button_press, hb]
      rw [if_neg hx, if_pos hb, List.countP_cons_of_pos _ _ hp]
      cases command with
      | none => rfl
      | some c => simp [system_calls, Effect.system_command, List.replicate_succ]
    · have hp : ¬ is_button_press rt = true := by simp [is_button_press, hb]
      rw [if_neg hb, List.countP_cons_of_neg _ _ hp]
      split
      · rw [hd]; cases command <;> rfl
      · cases command <;> rfl

theorem system_calls_after_show (w : World) (l : Locals) (nw nh : Nat) :
    system_calls (after_show_window w l nw nh) =
      system_calls (event_loop l.command nw nh w.events) := by
  unfold after_show_window
  have h2 : system_calls (if l.print_flag ≠ 0 then
      [Effect.stdout (print_window (w.generate_id 1)), Effect.fflush_stdout] else []) = [] := by
    split <;> rfl
  have h3 : system_calls (if l.background ≠ 0 then [Effect.daemon 1 0] else []) = [] := by
    split <;> rfl
  rw [system_calls_append, system_calls_append, h2, h3]
  rfl

theorem system_calls_main_display (w : World) (l : Locals) (di : xcb_display_info)
    (nw nh : Nat) :
    system_calls (main_display w l di nw nh) =
      if (show_window w (w.generate_id 1) l.x (placed_y l di nh) l.title
          (if l.unmapped ≠ 0 then 0 else 1)).2 = false then []
      else system_calls (event_loop l.command nw nh w.events) := by
  rw [main_display_eq]
  simp only [system_calls_append, system_calls_show_window]
  have h1 : ∀ x y wd ht d, system_calls (create_window w di x y wd ht d).1 = [] := by
    intros; rfl
  rw [h1]
  by_cases hs : (show_window w (w.generate_id 1) l.x (placed_y l di nh) l.title
          (if l.unmapped ≠ 0 then 0 else 1)).2 = false
  · rw [if_pos hs, if_pos hs]; rfl
  · rw [if_neg hs, if_neg hs, system_calls_after_show]; rfl

/-- Every run either makes no call to `system` or makes those of its event loop. -/
theorem system_calls_main (argv0 : String) (results : List GetoptResult) (args : List String)
    (w : World) :
    system_calls (main argv0 results args w).trace = [] ∨
    ∃ nw nh, system_calls (main argv0 results args w).trace =
      system_calls (event_loop (option_loop w {} results).command nw nh w.events) := by
  unfold main main_after_options
  simp only []
  split
  · left; exact system_calls_usage argv0
  · split
    · left; rfl
    · split
      · left; rfl
      · rename_i filename more
        have hload : system_calls ((if more ≠ [] then
            [Effect.stdout "warning: unexpected argument\n"] else []) ++
            [Effect.cairo_image_surface_create_from_png filename]) = [] := by
          split <;> rfl
        split
        · left
          rw [system_calls_append, hload]; rfl
        · rename_i nw nh hpng
          split
          · rename_i t hinit
            left
            have h1 := system_calls_init w
            rw [hinit] at h1
            rw [system_calls_append, hload, h1]; rfl
          · rename_i t di hinit
            have h1 := system_calls_init w
            rw [hinit] at h1
            rw [system_calls_append, system_calls_append, hload, h1, system_calls_main_display]
            simp only [List.nil_append]
            rcases ite_eq_or_eq ((show_window w (w.generate_id 1) (option_loop w {} results).x
                (placed_y (option_loop w {} results) di nh) (option_loop w {} results).title
                (if (option_loop w {} results).unmapped ≠ 0 then 0 else 1)).2 = false)
              ([] : List String)
              (system_calls (event_loop (option_loop w {} results).command nw nh w.events))
              with h | h
            · left; exact h
            · right; exact ⟨nw, nh, h⟩

/-! ## Map requests -/

theorem map_requests_append (a b : List Effect) :
    map_requests (a ++ b) = map_requests a ++ map_requests b := by
  simp [map_requests]

theorem map_requests_cookies : map_requests cookies = [] := by decide

theorem map_requests_usage (name : String) : map_requests (usage name) = [] := by
  simp [map_requests, usage, Effect.mapped_window]

theorem map_requests_init (w : World) : map_requests (init w).1 = [] := by
  unfold init
  split
  · rfl
  · split
    · rfl
    · split <;> rfl

theorem map_requests_event_loop (command : Option String) (nw nh : Nat) (events : List Nat) :
    map_requests (event_loop command nw nh events) = [] := by
  induction events with
  | nil => rfl
  | cons rt evs ih =>
    simp only [event_loop, map_requests_append, ih]
    by_cases h1 : event_code rt = XCB_EXPOSE <;>
      by_cases h2 : event_code rt = XCB_BUTTON_PRESS <;>
        simp only [h1, h2, if_true, if_false] <;> cases command <;> rfl

theorem map_requests_after_show (w : World) (l : Locals) (nw nh : Nat) :
    map_requests (after_show_window w l nw nh) = [] := by
  unfold after_show_window
  have h2 : map_requests (if l.print_flag ≠ 0 then
      [Effect.stdout (print_window (w.generate_id 1)), Effect.fflush_stdout] else []) = [] := by
    split <;> rfl
  have h3 : map_requests (if l.background ≠ 0 then [Effect.daemon 1 0] else []) = [] := by
    split <;> rfl
  rw [map_requests_append, map_requests_append, h2, h3, map_requests_event_loop]
  rfl

theorem map_requests_show_window_unmapped (w : World) (window : Nat) (x y : Int)
    (title : String) : map_requests (show_window w window x y title 0).1 = [] := by
  rcases show_window_cases w window x y title 0 with h | ⟨a0, a1, a2, a3, a4, h⟩
  · rw [h]
    simp only [map_requests_append, map_requests_cookies]
    rfl
  · rw [h]
    simp only [map_requests_append, map_requests_cookies]
    rfl

theorem map_requests_show_window_mapped (w : World) (window : Nat) (x y : Int)
    (title : String) (should_map : Int) (hm : should_map ≠ 0) (ha : AtomsResolved w) :
    map_requests (show_window w window x y title should_map).1 = [window] := by
  obtain ⟨a0, a1, a2, a3, a4, h⟩ := atom_replies_of_resolved w ha
  rw [show_window_of_atoms w window x y title should_map a0 a1 a2 a3 a4 h]
  simp only [map_requests_append, map_requests_cookies, if_pos hm]
  rfl

theorem show_window_returns (w : World) (window : Nat) (x y : Int) (title : String)
    (should_map : Int) (ha : AtomsResolved w) :
    (show_window w window x y title should_map).2 = true := by
  obtain ⟨a0, a1, a2, a3, a4, h⟩ := atom_replies_of_resolved w ha
  rw [show_window_of_atoms w window x y title should_map a0 a1 a2 a3 a4 h]

theorem map_requests_main_display (w : World) (l : Locals) (di : xcb_display_info)
    (nw nh : Nat) :
    map_requests (main_display w l di nw nh) =
      map_requests (show_window w (w.generate_id 1) l.x (placed_y l di nh) l.title
          (if l.unmapped ≠ 0 then 0 else 1)).1 := by
  rw [main_display_eq]
  simp only [map_requests_append]
  have h1 : ∀ x y wd ht d, map_requests (create_window w di x y wd ht d).1 = [] := by
    intros; rfl
  have h2 : map_requests (if (show_window w (w.generate_id 1) l.x (placed_y l di nh) l.title
          (if l.unmapped ≠ 0 then 0 else 1)).2 = false then []
        else after_show_window w l nw nh) = [] := by
    by_cases hc : (show_window w (w.generate_id 1) l.x (placed_y l di nh) l.title
          (if l.unmapped ≠ 0 then 0 else 1)).2 = false
    · rw [if_pos hc]; rfl
    · rw [if_neg hc]; exact map_requests_after_show w l nw nh
  rw [h1, h2]
  simp [map_requests, Effect.mapped_window]

/-- Every run either issues no map request or issues those of `show_window`,
called with `should_map` the negation of `unmapped`. -/
theorem map_requests_main (argv0 : String) (results : List GetoptResult) (args : List String)
    (w : World) :
    map_requests (main argv0 results args w).trace = [] ∨
    ((option_loop w {} results).help_flag = 0 ∧
     ∃ x y title, map_requests (main argv0 results args w).trace =
      map_requests (show_window w (w.generate_id 1) x y title
          (if (option_loop w {} results).unmapped ≠ 0 then 0 else 1)).1) := by
  unfold main main_after_options
  simp only []
  split
  · left; exact map_requests_usage argv0
  · rename_i hhelp
    split
    · left; rfl
    · split
      · left; rfl
      · rename_i filename more
        have hload : map_requests ((if more ≠ [] then
            [Effect.stdout "warning: unexpected argument\n"] else []) ++
            [Effect.cairo_image_surface_create_from_png filename]) = [] := by
          split <;> rfl
        split
        · left
          rw [map_requests_append, hload]; rfl
        · rename_i nw nh hpng
          split
          · rename_i t hinit
            left
            have h1 := map_requests_init w
            rw [hinit] at h1
            rw [map_requests_append, hload, h1]; rfl
          · rename_i t di hinit
            have h1 := map_requests_init w
            rw [hinit] at h1
            right
            refine ⟨not_not.mp hhelp, (option_loop w {} results).x,
              placed_y (option_loop w {} results) di nh, (option_loop w {} results).title, ?_⟩
            rw [map_requests_append, map_requests_append, hload, h1, map_requests_main_display]
            rfl

/-! ## Facts about the sample run -/

theorem sample_reaches_window : ReachesWindow ["a.png"] sample_world 7 11 sample_screen :=
  ⟨⟨"a.png", [], rfl, rfl⟩, rfl, rfl, ⟨⟨32, [⟨77⟩, ⟨78⟩]⟩, by decide, rfl⟩⟩

theorem sample_atoms_resolved : AtomsResolved sample_world := fun _ _ => rfl

theorem button_press_codes :
    ∀ rt, is_button_press rt = true ↔ (rt % 256 = 4 ∨ rt % 256 = 132) := by
  intro rt
  have h : ∀ n < 256, (n &&& (2 ^ 32 - 1 - 0x80) = 4 ↔ (n = 4 ∨ n = 132)) := by
    set_option maxRecDepth 100000 in decide
  have h1 := h (rt % 256) (Nat.mod_lt _ (by norm_num))
  simp only [is_button_press, event_code, XCB_BUTTON_PRESS, decide_eq_true_eq]
  exact h1

/-! ## The claims on the click command and on help -/

/-- C4: when `-c` or `--command` is given with argument `foo` (the last such
option, among accepted options, in a run that reaches the event loop), the
commands handed to `system` are exactly one `foo &` per button-press event, in
order: N button presses give N invocations, other events give none.  A button
press is an event whose response type is 4, with or without the 0x80 bit. -/
theorem command_runs_once_per_button_press (argv0 : String)
    (before after : List GetoptResult) (c : GetoptResult) (foo : String) (args : List String)
    (w : World) (nw nh : Nat) (scr : xcb_screen_t)
    (ha : OptionsAccepted (before ++ c :: after))
    (hc : gives_command c = true) (hfoo : c.optarg = foo)
    (hafter : ∀ r ∈ after, gives_command r = false)
    (hr : ReachesWindow args w nw nh scr) (hat : AtomsResolved w) :
    system_calls (main argv0 (before ++ c :: after) args w).trace =
        List.replicate (w.events.countP is_button_press) (foo ++ " &") ∧
      ∀ rt, is_button_press rt = true ↔ (rt % 256 = 4 ∨ rt % 256 = 132) := by
  refine ⟨?_, button_press_codes⟩
  obtain ⟨file, more, v, _, _, hmain⟩ := main_of_reaches argv0 _ args w nw nh scr ha hr
  have hcmd := option_loop_command_last w before after c ha hc hafter
  rw [hmain]
  simp only [system_calls_append, system_calls_main_display, show_window_returns _ _ _ _ _ _ hat,
    system_calls_event_loop, hcmd, hfoo]
  have h1 : system_calls (if more ≠ [] then
      [Effect.stdout "warning: unexpected argument\n"] else []) = [] := by
    split <;> rfl
  rw [h1]
  rfl

theorem command_runs_once_per_button_press_witness :
    system_calls (main "n30f" ([GetoptResult.char 'p' ""] ++
        GetoptResult.char 'c' "foo" :: [GetoptResult.long LongIndex.bottom ""])
        ["a.png"] sample_world).trace =
      List.replicate (sample_world.events.countP is_button_press) ("foo" ++ " &") ∧
    ∀ rt, is_button_press rt = true ↔ (rt % 256 = 4 ∨ rt % 256 = 132) :=
  command_runs_once_per_button_press "n30f" [GetoptResult.char 'p' ""]
    [GetoptResult.long LongIndex.bottom ""] (GetoptResult.char 'c' "foo") "foo" ["a.png"]
    sample_world 7 11 sample_screen (by unfold OptionsAccepted; decide) rfl rfl (by decide)
    sample_reaches_window sample_atoms_resolved

/-- C5: when neither `-c` nor `--command` is among the options, `command`
stays NULL, the button-press branch of the event loop does nothing, and the run
makes no call to `system`, whatever events arrive. -/
theorem no_command_never_calls_system (argv0 : String) (results : List GetoptResult)
    (args : List String) (w : World) (h : ∀ r ∈ results, gives_command r = false) :
    (option_loop w {} results).command = none ∧
      (∀ nw nh events, system_calls (event_loop none nw nh events) = []) ∧
      system_calls (main argv0 results args w).trace = [] := by
  have hcmd : (option_loop w {} results).command = none :=
    option_loop_command_kept w results {} h
  refine ⟨hcmd, fun nw nh events => system_calls_event_loop none nw nh events, ?_⟩
  rcases system_calls_main argv0 results args w with h1 | ⟨nw, nh, h1⟩
  · exact h1
  · rw [h1, hcmd]
    exact system_calls_event_loop none nw nh w.events

theorem no_command_never_calls_system_witness :
    (option_loop sample_world {} [GetoptResult.char 'p' ""]).command = none ∧
      (∀ nw nh events, system_calls (event_loop none nw nh events) = []) ∧
      system_calls (main "n30f" [GetoptResult.char 'p' ""] ["a.png"] sample_world).trace = [] :=
  no_command_never_calls_system "n30f" [GetoptResult.char 'p' ""] ["a.png"] sample_world
    (by decide)

/-- C6: whenever `-h` or `--help` is among the options that `getopt_long`
finds, `main` prints the usage text and returns 0 and does nothing else (no
image is loaded, no connection opened, no window created), whatever else the
command line holds: rejected options, other options, a FILE or none. -/
theorem help_prints_usage_and_exits_zero (argv0 : String) (results : List GetoptResult)
    (args : List String) (w : World) (h : ∃ r ∈ results, asks_help r = true) :
    main argv0 results args w = ⟨usage argv0, 0⟩ ∧
      ∀ e ∈ usage argv0, ∃ text, e = Effect.stdout text := by
  have h1 := option_loop_help w results {} h
  constructor
  · unfold main main_after_options
    simp only [h1]
    simp
  · intro e he
    simp only [usage, List.mem_cons, List.mem_singleton, List.not_mem_nil, or_false] at he
    rcases he with h | h | h | h | h | h | h | h | h | h | h | h <;> exact ⟨_, h⟩

theorem help_prints_usage_and_exits_zero_witness :
    main "n30f" [GetoptResult.char '?' "", GetoptResult.long LongIndex.help ""] [] sample_world =
        ⟨usage "n30f", 0⟩ ∧
      ∀ e ∈ usage "n30f", ∃ text, e = Effect.stdout text :=
  help_prints_usage_and_exits_zero "n30f"
    [GetoptResult.char '?' "", GetoptResult.long LongIndex.help ""] [] sample_world
    ⟨GetoptResult.long LongIndex.help "", by decide, rfl⟩

/-! ## Which calls occur where -/

theorem filterMap_eq_nil_of_forall {α : Type} (f : Effect → Option α) (t : List Effect)
    (h : ∀ e ∈ t, f e = none) : t.filterMap f = [] := by
  induction t with
  | nil => rfl
  | cons e t ih =>
    rw [List.filterMap_cons, h e (List.mem_cons_self _ _)]
    exact ih (fun e1 h1 => h e1 (List.mem_cons_of_mem _ h1))

theorem event_loop_effects (command : Option String) (nw nh : Nat) (events : List Nat) :
    ∀ e ∈ event_loop command nw nh events, e.in_event_phase = true := by
  induction events with
  | nil => intro e he; cases he
  | cons rt evs ih =>
    intro e he
    simp only [event_loop, List.mem_append] at he
    rcases he with (he | he) | he
    · split at he
      · simp only [draw, List.cons_append, List.nil_append, List.mem_cons, List.mem_singleton,
          List.not_mem_nil, or_false] at he
        rcases he with h | h | h | h <;> (subst h; rfl)
      · cases he
    · split at he
      · cases command with
        | none => cases he
        | some c =>
          simp only [List.mem_singleton] at he
          subst he; rfl
      · cases he
    · exact ih e he

theorem after_show_effects (w : World) (l : Locals) (nw nh : Nat) :
    ∀ e ∈ after_show_window w l nw nh, e.in_event_phase = true := by
  intro e he
  simp only [after_show_window, List.mem_append] at he
  rcases he with (he | he) | he
  · split at he
    · simp only [List.mem_cons, List.mem_singleton, List.not_mem_nil, or_false] at he
      rcases he with h | h <;> (subst h; rfl)
    · cases he
  · split at he
    · simp only [List.mem_singleton] at he
      subst he; rfl
    · cases he
  · exact event_loop_effects _ _ _ _ e he

theorem show_window_effects (w : World) (window : Nat) (x y : Int) (title : String)
    (should_map : Int) :
    ∀ e ∈ (show_window w window x y title should_map).1, e.in_show_window = true := by
  have hc : ∀ e ∈ cookies, e.in_show_window = true := by decide
  intro e he
  rcases show_window_cases w window x y title should_map with h | ⟨a0, a1, a2, a3, a4, h⟩
  · rw [h] at he
    simp only [List.mem_append, List.mem_singleton] at he
    rcases he with he | he
    · exact hc e he
    · subst he; rfl
  · rw [h] at he
    simp only [List.mem_append, List.mem_cons, List.mem_singleton, List.not_mem_nil,
      or_false] at he
    rcases he with ((he | he) | he) | he
    · exact hc e he
    · rcases he with h | h | h | h | h <;> (subst h; rfl)
    · split at he
      · simp only [List.mem_singleton] at he
        subst he; rfl
      · cases he
    · rcases he with h | h <;> (subst h; rfl)

/-- A reading of the trace that only looks at the creation of the window and of
its surface sees `main_display` as those two calls. -/
theorem filterMap_main_display {α : Type} (f : Effect → Option α)
    (h1 : ∀ e, e.in_show_window = true → f e = none)
    (h2 : ∀ e, e.in_event_phase = true → f e = none)
    (h3 : ∀ a b c d, f (Effect.xcb_create_colormap a b c d) = none)
    (h4 : ∀ a, f (Effect.xcb_free_colormap a) = none)
    (h5 : f Effect.cairo_create = none) (h6 : ∀ a b, f (Effect.cairo_scale a b) = none)
    (w : World) (l : Locals) (di : xcb_display_info) (nw nh : Nat) :
    (main_display w l di nw nh).filterMap f =
      [Effect.xcb_create_window 32 (w.generate_id 1) di.s.root l.x (placed_y l di nh)
          (scaled nw l.s) (scaled nh l.s) 0 XCB_WINDOW_CLASS_INPUT_OUTPUT (visual_id_at di.v)
          (XCB_CW_BACK_PIXEL ||| XCB_CW_BORDER_PIXEL ||| XCB_CW_OVERRIDE_REDIRECT |||
            XCB_CW_EVENT_MASK ||| XCB_CW_COLORMAP)
          [0, 0, to_uint32 l.dock, XCB_EVENT_MASK_EXPOSURE ||| XCB_EVENT_MASK_BUTTON_PRESS,
            w.generate_id 0],
        Effect.cairo_xcb_surface_create (w.generate_id 1) (scaled nw l.s)
          (scaled nh l.s)].filterMap f := by
  rw [main_display_eq]
  have hs := filterMap_eq_nil_of_forall f _
    (fun e he => h1 e (show_window_effects w (w.generate_id 1) l.x (placed_y l di nh) l.title
      (if l.unmapped ≠ 0 then 0 else 1) e he))
  have ha : (if (show_window w (w.generate_id 1) l.x (placed_y l di nh) l.title
          (if l.unmapped ≠ 0 then 0 else 1)).2 = false then []
        else after_show_window w l nw nh).filterMap f = [] := by
    by_cases hc : (show_window w (w.generate_id 1) l.x (placed_y l di nh) l.title
          (if l.unmapped ≠ 0 then 0 else 1)).2 = false
    · rw [if_pos hc]; rfl
    · rw [if_neg hc]
      exact filterMap_eq_nil_of_forall f _ (fun e he => h2 e (after_show_effects w l nw nh e he))
  rw [List.filterMap_append, List.filterMap_append, List.filterMap_append, hs, ha]
  simp only [create_window, List.filterMap_cons, h3, h4, h5, h6, List.filterMap_nil,
    List.append_nil]
  cases f (Effect.xcb_create_window 32 (w.generate_id 1) di.s.root l.x (placed_y l di nh)
      (scaled nw l.s) (scaled nh l.s) 0 XCB_WINDOW_CLASS_INPUT_OUTPUT (visual_id_at di.v)
      (XCB_CW_BACK_PIXEL ||| XCB_CW_BORDER_PIXEL ||| XCB_CW_OVERRIDE_REDIRECT |||
        XCB_CW_EVENT_MASK ||| XCB_CW_COLORMAP)
      [0, 0, to_uint32 l.dock, XCB_EVENT_MASK_EXPOSURE ||| XCB_EVENT_MASK_BUTTON_PRESS,
        w.generate_id 0]) <;> rfl

/-- The same for a whole run that reaches the window. -/
theorem filterMap_main {α : Type} (f : Effect → Option α)
    (h1 : ∀ e, e.in_show_window = true → f e = none)
    (h2 : ∀ e, e.in_event_phase = true → f e = none)
    (h3 : ∀ a b c d, f (Effect.xcb_create_colormap a b c d) = none)
    (h4 : ∀ a, f (Effect.xcb_free_colormap a) = none)
    (h5 : f Effect.cairo_create = none) (h6 : ∀ a b, f (Effect.cairo_scale a b) = none)
    (h7 : ∀ a, f (Effect.cairo_image_surface_create_from_png a) = none)
    (h8 : f Effect.xcb_connect = none)
    (argv0 : String) (results : List GetoptResult) (args : List String)
    (w : World) (nw nh : Nat) (scr : xcb_screen_t)
    (ha : OptionsAccepted results) (hr : ReachesWindow args w nw nh scr) :
    ∃ v, get_alpha_visualtype scr = some v ∧
    (main argv0 results args w).trace.filterMap f =
      [Effect.xcb_create_window 32 (w.generate_id 1) scr.root (option_loop w {} results).x
          (placed_y (option_loop w {} results) ⟨scr, v⟩ nh)
          (scaled nw (option_loop w {} results).s) (scaled nh (option_loop w {} results).s) 0
          XCB_WINDOW_CLASS_INPUT_OUTPUT (visual_id_at v)
          (XCB_CW_BACK_PIXEL ||| XCB_CW_BORDER_PIXEL ||| XCB_CW_OVERRIDE_REDIRECT |||
            XCB_CW_EVENT_MASK ||| XCB_CW_COLORMAP)
          [0, 0, to_uint32 (option_loop w {} results).dock,
            XCB_EVENT_MASK_EXPOSURE ||| XCB_EVENT_MASK_BUTTON_PRESS, w.generate_id 0],
        Effect.cairo_xcb_surface_create (w.generate_id 1)
          (scaled nw (option_loop w {} results).s)
          (scaled nh (option_loop w {} results).s)].filterMap f := by
  obtain ⟨file, more, v, _, hv, hmain⟩ := main_of_reaches argv0 results args w nw nh scr ha hr
  refine ⟨v, hv, ?_⟩
  rw [hmain]
  simp only [List.filterMap_append]
  rw [filterMap_main_display f h1 h2 h3 h4 h5 h6]
  have hw : (if more ≠ [] then
      [Effect.stdout "warning: unexpected argument\n"] else []).filterMap f = [] := by
    split
    · simp [List.filterMap_cons, h2 (Effect.stdout _) rfl]
    · rfl
  rw [hw]
  simp only [List.filterMap_cons, h7, h8, List.filterMap_nil, List.nil_append]

theorem created_sizes_main (argv0 : String) (results : List GetoptResult) (args : List String)
    (w : World) (nw nh : Nat) (scr : xcb_screen_t)
    (ha : OptionsAccepted results) (hr : ReachesWindow args w nw nh scr) :
    created_sizes (main argv0 results args w).trace =
      [(scaled nw (option_loop w {} results).s, scaled nh (option_loop w {} results).s)] := by
  obtain ⟨v, _, h⟩ := filterMap_main Effect.created_size
    (by intro e he; cases e <;> first | rfl | cases he)
    (by intro e he; cases e <;> first | rfl | cases he)
    (by intros; rfl) (by intros; rfl) rfl (by intros; rfl) (by intros; rfl) rfl
    argv0 results args w nw nh scr ha hr
  unfold created_sizes
  rw [h]
  rfl

theorem surface_sizes_main (argv0 : String) (results : List GetoptResult) (args : List String)
    (w : World) (nw nh : Nat) (scr : xcb_screen_t)
    (ha : OptionsAccepted results) (hr : ReachesWindow args w nw nh scr) :
    surface_sizes (main argv0 results args w).trace =
      [(scaled nw (option_loop w {} results).s, scaled nh (option_loop w {} results).s)] := by
  obtain ⟨v, _, h⟩ := filterMap_main Effect.surface_size
    (by intro e he; cases e <;> first | rfl | cases he)
    (by intro e he; cases e <;> first | rfl | cases he)
    (by intros; rfl) (by intros; rfl) rfl (by intros; rfl) (by intros; rfl) rfl
    argv0 results args w nw nh scr ha hr
  unfold surface_sizes
  rw [h]
  rfl

theorem created_positions_main (argv0 : String) (results : List GetoptResult)
    (args : List String) (w : World) (nw nh : Nat) (scr : xcb_screen_t)
    (ha : OptionsAccepted results) (hr : ReachesWindow args w nw nh scr) :
    ∃ v, get_alpha_visualtype scr = some v ∧
    created_positions (main argv0 results args w).trace =
      [((option_loop w {} results).x, placed_y (option_loop w {} results) ⟨scr, v⟩ nh)] := by
  obtain ⟨v, hv, h⟩ := filterMap_main Effect.created_position
    (by intro e he; cases e <;> first | rfl | cases he)
    (by intro e he; cases e <;> first | rfl | cases he)
    (by intros; rfl) (by intros; rfl) rfl (by intros; rfl) (by intros; rfl) rfl
    argv0 results args w nw nh scr ha hr
  refine ⟨v, hv, ?_⟩
  unfold created_positions
  rw [h]
  rfl

theorem created_overrides_main (argv0 : String) (results : List GetoptResult)
    (args : List String) (w : World) (nw nh : Nat) (scr : xcb_screen_t)
    (ha : OptionsAccepted results) (hr : ReachesWindow args w nw nh scr) :
    created_overrides (main argv0 results args w).trace =
      [some (to_uint32 (option_loop w {} results).dock)] := by
  obtain ⟨v, _, h⟩ := filterMap_main Effect.created_override
    (by intro e he; cases e <;> first | rfl | cases he)
    (by intro e he; cases e <;> first | rfl | cases he)
    (by intros; rfl) (by intros; rfl) rfl (by intros; rfl) (by intros; rfl) rfl
    argv0 results args w nw nh scr ha hr
  unfold created_overrides
  rw [h]
  rfl

/-! ## The claims on mapping, on the visual and on the hints -/

/-- C7: with `-u` or `--unmapped` among the options no run issues a map-window
request at any point, and a run that gets past start-up still creates the
window; without them, `show_window` (when the atoms are resolved) ends in the
map request, the move to `(x, y)` and the flush, with no map request before,
and the whole run issues exactly one map request, for the created window. -/
theorem unmapped_window_is_never_mapped :
    (∀ (argv0 : String) (results : List GetoptResult) (args : List String) (w : World),
      (∃ r ∈ results, gives_unmapped r = true) →
        map_requests (main argv0 results args w).trace = []) ∧
    (∀ (argv0 : String) (results : List GetoptResult) (args : List String) (w : World)
      (nw nh : Nat) (scr : xcb_screen_t),
      OptionsAccepted results → ReachesWindow args w nw nh scr →
        (created_sizes (main argv0 results args w).trace).length = 1) ∧
    (∀ (w : World) (window : Nat) (x y : Int) (title : String) (should_map : Int),
      should_map ≠ 0 → AtomsResolved w →
        ∃ before, (show_window w window x y title should_map).1 =
            before ++ [Effect.xcb_map_window window,
              Effect.xcb_configure_window window (XCB_CONFIG_WINDOW_X ||| XCB_CONFIG_WINDOW_Y)
                [to_uint32 x, to_uint32 y],
              Effect.xcb_flush] ∧
          map_requests before = []) ∧
    (∀ (argv0 : String) (results : List GetoptResult) (args : List String) (w : World)
      (nw nh : Nat) (scr : xcb_screen_t),
      OptionsAccepted results → (∀ r ∈ results, gives_unmapped r = false) →
        ReachesWindow args w nw nh scr → AtomsResolved w →
        map_requests (main argv0 results args w).trace = [w.generate_id 1]) := by
  refine ⟨?_, ?_, ?_, ?_⟩
  · intro argv0 results args w h
    rcases map_requests_main argv0 results args w with h1 | ⟨hhelp, x, y, title, h1⟩
    · exact h1
    · rcases option_loop_unmapped w results {} h with hu | hh
      · rw [h1, hu]
        exact map_requests_show_window_unmapped w _ x y title
      · rw [hh] at hhelp
        cases hhelp
  · intro argv0 results args w nw nh scr ha hr
    rw [created_sizes_main argv0 results args w nw nh scr ha hr]
    rfl
  · intro w window x y title should_map hm hat
    obtain ⟨a0, a1, a2, a3, a4, h⟩ := atom_replies_of_resolved w hat
    rw [show_window_of_atoms w window x y title should_map a0 a1 a2 a3 a4 h]
    refine ⟨cookies ++
        [Effect.xcb_change_property XCB_PROP_MODE_REPLACE window a0 XCB_ATOM_ATOM 32 1
            (PropData.words [a1]),
         Effect.xcb_change_property XCB_PROP_MODE_APPEND window a2 XCB_ATOM_ATOM 32 2
            (PropData.words [a3, a4]),
         Effect.xcb_change_property XCB_PROP_MODE_REPLACE window a4 XCB_ATOM_CARDINAL 32 1
            (PropData.words [to_uint32 (-1)]),
         Effect.xcb_change_property XCB_PROP_MODE_REPLACE window XCB_ATOM_WM_NAME
            XCB_ATOM_STRING 8 title.utf8ByteSize (PropData.bytes title),
         Effect.xcb_change_window_attributes window XCB_CW_OVERRIDE_REDIRECT [1]], ?_, ?_⟩
    · rw [if_pos hm]
      simp
    · rw [map_requests_append, map_requests_cookies]
      rfl
  · intro argv0 results args w nw nh scr ha hu hr hat
    have hflag : (option_loop w {} results).unmapped = 0 := by
      rw [accepted_flag_value w results ha Locals.unmapped gives_unmapped
        (option_step_unmapped w), any_eq_false_of_forall gives_unmapped results hu]
      rfl
    obtain ⟨file, more, v, _, _, hmain⟩ := main_of_reaches argv0 results args w nw nh scr ha hr
    rw [hmain]
    simp only [map_requests_append, map_requests_main_display, hflag]
    rw [map_requests_show_window_mapped w _ _ _ _ _ (by decide) hat]
    have h1 : map_requests (if more ≠ [] then
        [Effect.stdout "warning: unexpected argument\n"] else []) = [] := by
      split <;> rfl
    rw [h1]
    rfl

theorem unmapped_window_is_never_mapped_witness :
    map_requests (main "n30f" [GetoptResult.char 'u' ""] ["a.png"] sample_world).trace = [] ∧
    (created_sizes (main "n30f" [GetoptResult.char 'u' ""] ["a.png"] sample_world).trace).length
      = 1 ∧
    (∃ before, (show_window sample_world 4194305 3 4 "n30f" 1).1 =
        before ++ [Effect.xcb_map_window 4194305,
          Effect.xcb_configure_window 4194305 (XCB_CONFIG_WINDOW_X ||| XCB_CONFIG_WINDOW_Y)
            [to_uint32 3, to_uint32 4],
          Effect.xcb_flush] ∧
      map_requests before = []) ∧
    map_requests (main "n30f" [GetoptResult.char 'p' ""] ["a.png"] sample_world).trace =
      [sample_world.generate_id 1] :=
  ⟨unmapped_window_is_never_mapped.1 "n30f" [GetoptResult.char 'u' ""] ["a.png"] sample_world
      ⟨GetoptResult.char 'u' "", by decide, rfl⟩,
    unmapped_window_is_never_mapped.2.1 "n30f" [GetoptResult.char 'u' ""] ["a.png"] sample_world
      7 11 sample_screen (by unfold OptionsAccepted; decide) sample_reaches_window,
    unmapped_window_is_never_mapped.2.2.1 sample_world 4194305 3 4 "n30f" 1 (by decide)
      sample_atoms_resolved,
    unmapped_window_is_never_mapped.2.2.2 "n30f" [GetoptResult.char 'p' ""] ["a.png"]
      sample_world 7 11 sample_screen (by unfold OptionsAccepted; decide) (by decide)
      sample_reaches_window sample_atoms_resolved⟩

/-- C1: `get_alpha_visualtype` returns the start of the visual array of the
first depth entry, in the order of the list, whose depth is 32 (so the visual it
points to is that entry's first visual), whatever other depths stand before or
after it; it returns NULL exactly when no entry has depth 32, and that is
exactly when `init`, once connected to a screen, ends in
`errx(1, "transparency support not found")`. -/
theorem get_alpha_visualtype_first_depth_32 (s : xcb_screen_t) (w : World) :
    get_alpha_visualtype s =
        (s.allowed_depths.find? (fun d => decide (d.depth = 32))).map xcb_depth_t.visuals ∧
    (∀ before d after, s.allowed_depths = before ++ d :: after →
        (∀ b ∈ before, b.depth ≠ 32) → d.depth = 32 →
        get_alpha_visualtype s = some d.visuals ∧
        (get_alpha_visualtype s).bind List.head? = d.visuals.head?) ∧
    (get_alpha_visualtype s = none ↔ ∀ d ∈ s.allowed_depths, d.depth ≠ 32) ∧
    (w.connection_has_error = false → w.screen = some s →
      (init w = ([Effect.xcb_connect, Effect.errx 1 "transparency support not found"], none) ↔
        ∀ d ∈ s.allowed_depths, d.depth ≠ 32)) := by
  refine ⟨visual_loop_eq_find _, ?_, visual_loop_none_iff _, ?_⟩
  · intro before d after hsplit hb hd
    have h : get_alpha_visualtype s = some d.visuals := by
      unfold get_alpha_visualtype
      rw [hsplit]
      exact visual_loop_split before after d hb hd
    exact ⟨h, by rw [h]; rfl⟩
  · intro hc hs
    rw [← visual_loop_none_iff]
    show _ ↔ get_alpha_visualtype s = none
    cases hv : get_alpha_visualtype s with
    | none => simp [init, hc, hs, hv]
    | some v => simp [init, hc, hs, hv]

theorem get_alpha_visualtype_first_depth_32_witness :
    get_alpha_visualtype sample_screen = some [⟨77⟩, ⟨78⟩] ∧
    (get_alpha_visualtype sample_screen).bind List.head? = some ⟨77⟩ ∧
    (get_alpha_visualtype ⟨99, 1080, [⟨1, []⟩, ⟨32, [⟨77⟩, ⟨78⟩]⟩, ⟨24, [⟨33⟩]⟩]⟩).bind List.head?
      = some ⟨77⟩ ∧
    ¬ (init sample_world =
        ([Effect.xcb_connect, Effect.errx 1 "transparency support not found"], none)) :=
  ⟨((get_alpha_visualtype_first_depth_32 sample_screen sample_world).2.1
      [⟨24, [⟨33⟩]⟩] ⟨32, [⟨77⟩, ⟨78⟩]⟩ [⟨1, []⟩] rfl (by decide) rfl).1,
    ((get_alpha_visualtype_first_depth_32 sample_screen sample_world).2.1
      [⟨24, [⟨33⟩]⟩] ⟨32, [⟨77⟩, ⟨78⟩]⟩ [⟨1, []⟩] rfl (by decide) rfl).2,
    ((get_alpha_visualtype_first_depth_32
        ⟨99, 1080, [⟨1, []⟩, ⟨32, [⟨77⟩, ⟨78⟩]⟩, ⟨24, [⟨33⟩]⟩]⟩ sample_world).2.1
      [⟨1, []⟩] ⟨32, [⟨77⟩, ⟨78⟩]⟩ [⟨24, [⟨33⟩]⟩] rfl (by decide) rfl).2,
    fun h => absurd rfl
      (((get_alpha_visualtype_first_depth_32 sample_screen sample_world).2.2.2 rfl rfl).mp h
        ⟨32, [⟨77⟩, ⟨78⟩]⟩ (by decide))⟩

/-- C8 (what the code does): the append to `_NET_WM_STATE` in `show_window`
has `data_len` 2 and reads two atoms from `&atom_list[NET_WM_STATE_ABOVE]`: the
atom of `_NET_WM_STATE_ABOVE` and, after it, the atom of `_NET_WM_DESKTOP`. -/
theorem net_wm_state_append_reads_two_atoms (w : World) (window : Nat) (x y : Int)
    (title : String) (should_map : Int) (a0 a1 a2 a3 a4 : Nat)
    (h0 : w.atom_reply 0 = some a0) (h1 : w.atom_reply 1 = some a1)
    (h2 : w.atom_reply 2 = some a2) (h3 : w.atom_reply 3 = some a3)
    (h4 : w.atom_reply 4 = some a4) :
    appended_to a2 (show_window w window x y title should_map).1 = [PropData.words [a3, a4]] ∧
    Effect.xcb_change_property XCB_PROP_MODE_APPEND window a2 XCB_ATOM_ATOM 32 2
      (PropData.words [a3, a4]) ∈ (show_window w window x y title should_map).1 := by
  have h : atom_replies w 0 atoms = some [a0, a1, a2, a3, a4] := by
    rw [atoms_eq]
    simp [atom_replies, h0, h1, h2, h3, h4]
  rw [show_window_of_atoms w window x y title should_map a0 a1 a2 a3 a4 h]
  constructor
  · have hc : appended_to a2 cookies = [] := by
      apply filterMap_eq_nil_of_forall
      intro e he
      simp only [cookies, atom_names, List.map_cons, List.map_nil, List.mem_cons,
        List.mem_singleton, List.not_mem_nil, or_false] at he
      rcases he with h | h | h | h | h <;> (subst h; rfl)
    unfold appended_to at hc ⊢
    rw [List.filterMap_append, List.filterMap_append, List.filterMap_append, hc]
    have hm : List.filterMap (Effect.appended_data a2)
        (if should_map ≠ 0 then [Effect.xcb_map_window window] else []) = [] := by
      split <;> rfl
    rw [hm]
    simp [List.filterMap_cons, Effect.appended_data, XCB_PROP_MODE_APPEND, XCB_PROP_MODE_REPLACE]
  · simp

theorem net_wm_state_append_reads_two_atoms_witness :
    appended_to 302 (show_window sample_world 4194305 0 0 "n30f" 1).1 =
        [PropData.words [303, 304]] ∧
    Effect.xcb_change_property XCB_PROP_MODE_APPEND 4194305 302 XCB_ATOM_ATOM 32 2
      (PropData.words [303, 304]) ∈ (show_window sample_world 4194305 0 0 "n30f" 1).1 :=
  net_wm_state_append_reads_two_atoms sample_world 4194305 0 0 "n30f" 1 300 301 302 303 304
    rfl rfl rfl rfl rfl

/-! ## Override-redirect -/

theorem override_step_event (window : Nat) (st : Option Nat) (e : Effect)
    (h : e.in_event_phase = true) : override_redirect_step window st e = st := by
  cases e <;> first | rfl | cases h

theorem foldl_override_events (window : Nat) (t : List Effect) :
    ∀ st, (∀ e ∈ t, e.in_event_phase = true) →
      t.foldl (override_redirect_step window) st = st := by
  induction t with
  | nil => intro st _; rfl
  | cons e t ih =>
    intro st h
    rw [List.foldl_cons, override_step_event window st e (h e (List.mem_cons_self _ _))]
    exact ih st (fun e1 h1 => h e1 (List.mem_cons_of_mem _ h1))

theorem override_after_create (w : World) (di : xcb_display_info) (x y wd ht dock : Int)
    (st : Option Nat) :
    (create_window w di x y wd ht dock).1.foldl (override_redirect_step (w.generate_id 1)) st =
      some (to_uint32 dock) := by
  simp only [create_window, List.foldl_cons, List.foldl_nil, override_redirect_step, if_true]
  rfl

theorem override_after_show (w : World) (window : Nat) (x y : Int) (title : String)
    (should_map : Int) (hat : AtomsResolved w) (d : Nat) :
    (show_window w window x y title should_map).1.foldl (override_redirect_step window)
      (some d) = some 1 := by
  obtain ⟨a0, a1, a2, a3, a4, h⟩ := atom_replies_of_resolved w hat
  rw [show_window_of_atoms w window x y title should_map a0 a1 a2 a3 a4 h]
  have hc : ∀ st, cookies.foldl (override_redirect_step window) st = st := fun st => rfl
  have hm : ∀ st, (if should_map ≠ 0 then [Effect.xcb_map_window window] else []).foldl
      (override_redirect_step window) st = st := by
    intro st
    split <;> rfl
  simp only [List.foldl_append, hc, hm, List.foldl_cons, List.foldl_nil, override_redirect_step,
    if_true]
  rfl

/-- After a run that gets through `show_window` the created window has
override-redirect 1. -/
theorem override_after_main (argv0 : String) (results : List GetoptResult) (args : List String)
    (w : World) (nw nh : Nat) (scr : xcb_screen_t)
    (ha : OptionsAccepted results) (hr : ReachesWindow args w nw nh scr)
    (hat : AtomsResolved w) :
    override_redirect_after (w.generate_id 1) (main argv0 results args w).trace = some 1 := by
  obtain ⟨file, more, v, _, _, hmain⟩ := main_of_reaches argv0 results args w nw nh scr ha hr
  rw [hmain, override_redirect_after, main_display_eq]
  simp only [List.foldl_append, override_after_create, show_window_returns _ _ _ _ _ _ hat]
  simp only [List.foldl_cons, List.foldl_nil, override_redirect_step]
  rw [override_after_show w _ _ _ _ _ hat]
  exact foldl_override_events _ _ _ (by
    intro e he
    simp only [Bool.true_eq_false, if_false] at he
    exact after_show_effects w _ nw nh e he)

/-! ## A run with `-i` against the same run without -/

theorem map_eq_self_of_forall (f : Effect → Effect) (t : List Effect)
    (h : ∀ e ∈ t, f e = e) : t.map f = t := by
  induction t with
  | nil => rfl
  | cons e t ih =>
    rw [List.map_cons, h e (List.mem_cons_self _ _),
      ih (fun e1 h1 => h e1 (List.mem_cons_of_mem _ h1))]

theorem with_creation_override_show (v : Nat) (e : Effect) (h : e.in_show_window = true) :
    with_creation_override v e = e := by
  cases e <;> first | rfl | cases h

theorem with_creation_override_event (v : Nat) (e : Effect) (h : e.in_event_phase = true) :
    with_creation_override v e = e := by
  cases e <;> first | rfl | cases h

theorem init_effects (w : World) :
    ∀ e ∈ (init w).1, e = Effect.xcb_connect ∨ ∃ m, e = Effect.errx 1 m := by
  intro e he
  unfold init at he
  split at he
  · simp only [List.mem_cons, List.mem_singleton, List.not_mem_nil, or_false] at he
    rcases he with h | h
    · exact Or.inl h
    · exact Or.inr ⟨_, h⟩
  · split at he
    · simp only [List.mem_cons, List.mem_singleton, List.not_mem_nil, or_false] at he
      rcases he with h | h
      · exact Or.inl h
      · exact Or.inr ⟨_, h⟩
    · split at he
      · simp only [List.mem_cons, List.mem_singleton, List.not_mem_nil, or_false] at he
        rcases he with h | h
        · exact Or.inl h
        · exact Or.inr ⟨_, h⟩
      · simp only [List.mem_singleton] at he
        exact Or.inl he

theorem main_display_with_dock (w : World) (l : Locals) (di : xcb_display_info) (nw nh : Nat) :
    main_display w { l with dock := 1 } di nw nh =
      (main_display w l di nw nh).map (with_creation_override 1) := by
  rw [main_display_eq, main_display_eq]
  have hp : placed_y { l with dock := 1 } di nh = placed_y l di nh := rfl
  have ha : after_show_window w { l with dock := 1 } nw nh = after_show_window w l nw nh := rfl
  rw [hp, ha]
  simp only [List.map_append]
  rw [map_eq_self_of_forall _ (show_window w (w.generate_id 1) l.x (placed_y l di nh) l.title
      (if l.unmapped ≠ 0 then 0 else 1)).1
    (fun e he => with_creation_override_show 1 e (show_window_effects _ _ _ _ _ _ e he))]
  have h2 : (if (show_window w (w.generate_id 1) l.x (placed_y l di nh) l.title
          (if l.unmapped ≠ 0 then 0 else 1)).2 = false then []
        else after_show_window w l nw nh).map (with_creation_override 1) =
      (if (show_window w (w.generate_id 1) l.x (placed_y l di nh) l.title
          (if l.unmapped ≠ 0 then 0 else 1)).2 = false then []
        else after_show_window w l nw nh) := by
    by_cases hc : (show_window w (w.generate_id 1) l.x (placed_y l di nh) l.title
          (if l.unmapped ≠ 0 then 0 else 1)).2 = false
    · rw [if_pos hc]; rfl
    · rw [if_neg hc]
      exact map_eq_self_of_forall _ _
        (fun e he => with_creation_override_event 1 e (after_show_effects w l nw nh e he))
  rw [h2]
  rfl

theorem main_after_options_with_dock (argv0 : String) (l : Locals) (args : List String)
    (w : World) :
    main_after_options argv0 { l with dock := 1 } args w =
      ⟨(main_after_options argv0 l args w).trace.map (with_creation_override 1),
        (main_after_options argv0 l args w).status⟩ := by
  unfold main_after_options
  simp only []
  split
  · simp [usage, with_creation_override]
  · split
    · rfl
    · split
      · rfl
      · rename_i filename more
        have hload : ((if more ≠ [] then
            [Effect.stdout "warning: unexpected argument\n"] else []) ++
            [Effect.cairo_image_surface_create_from_png filename]).map
              (with_creation_override 1) =
            (if more ≠ [] then
            [Effect.stdout "warning: unexpected argument\n"] else []) ++
            [Effect.cairo_image_surface_create_from_png filename] := by
          split <;> rfl
        split
        · simp only [List.map_append, hload]
          rfl
        · rename_i nw nh hpng
          have hinit : (init w).1.map (with_creation_override 1) = (init w).1 := by
            apply map_eq_self_of_forall
            intro e he
            rcases init_effects w e he with h | ⟨m, h⟩ <;> (subst h; rfl)
          split
          · rename_i t hi
            rw [hi] at hinit
            simp only [List.map_append, hload, hinit]
          · rename_i t di hi
            rw [hi] at hinit
            simp only [List.map_append, hload, hinit, main_display_with_dock]

theorem option_loop_ignored_first (w : World) (r : GetoptResult) (results : List GetoptResult)
    (hr : gives_ignored r = true) :
    option_loop w {} (r :: results) = { option_loop w {} results with dock := 1 } := by
  have hs : is_short_h r = false := by
    cases r with
    | char c a =>
      simp only [gives_ignored, decide_eq_true_eq] at hr
      subst hr
      rfl
    | long i a => rfl
  have hstep : option_step w {} r = { ({} : Locals) with dock := 1 } := by
    cases r with
    | char c a =>
      simp only [gives_ignored, decide_eq_true_eq] at hr
      subst hr
      show (main_switch w {} (char_code 'i') a).1 = _
      rw [code_i]
      rfl
    | long i a =>
      simp only [gives_ignored, decide_eq_true_eq] at hr
      subst hr
      rfl
  rw [option_loop_cons, hs]
  simp only [Bool.false_eq_true, if_false]
  rw [hstep, option_loop_with_dock]

/-- C10: the override-redirect attribute of the window after `show_window` is 1
with and without `-i`/`--ignored`: `create_window` creates the window with the
attribute set to the flag (1 with the option, 0 without), `show_window` then
sets it to 1; and the run with the option put in front of the others makes the
same calls and ends with the same status as the run without it, except for that
creation-time value. -/
theorem override_redirect_forced_whatever_ignored :
    (∀ (argv0 : String) (results : List GetoptResult) (args : List String) (w : World)
      (nw nh : Nat) (scr : xcb_screen_t),
      OptionsAccepted results → ReachesWindow args w nw nh scr → AtomsResolved w →
        override_redirect_after (w.generate_id 1) (main argv0 results args w).trace = some 1 ∧
        created_overrides (main argv0 results args w).trace =
          [some (if results.any gives_ignored = true then 1 else 0)]) ∧
    (∀ (w : World) (window : Nat) (x y : Int) (title : String) (should_map : Int) (d : Nat),
      AtomsResolved w →
        (show_window w window x y title should_map).1.foldl (override_redirect_step window)
          (some d) = some 1) ∧
    (∀ (argv0 : String) (r : GetoptResult) (results : List GetoptResult) (args : List String)
      (w : World), gives_ignored r = true →
        main argv0 (r :: results) args w =
          ⟨(main argv0 results args w).trace.map (with_creation_override 1),
            (main argv0 results args w).status⟩) := by
  refine ⟨?_, ?_, ?_⟩
  · intro argv0 results args w nw nh scr ha hr hat
    refine ⟨override_after_main argv0 results args w nw nh scr ha hr hat, ?_⟩
    rw [created_overrides_main argv0 results args w nw nh scr ha hr,
      accepted_flag_value w results ha Locals.dock gives_ignored (option_step_dock w)]
    split <;> rfl
  · intro w window x y title should_map d hat
    exact override_after_show w window x y title should_map hat d
  · intro argv0 r results args w hr
    unfold main
    rw [option_loop_ignored_first w r results hr, main_after_options_with_dock]

theorem override_redirect_forced_whatever_ignored_witness :
    (override_redirect_after (sample_world.generate_id 1)
        (main "n30f" [GetoptResult.char 'i' ""] ["a.png"] sample_world).trace = some 1 ∧
      created_overrides (main "n30f" [GetoptResult.char 'i' ""] ["a.png"] sample_world).trace =
        [some (if [GetoptResult.char 'i' ""].any gives_ignored = true then 1 else 0)]) ∧
    (override_redirect_after (sample_world.generate_id 1)
        (main "n30f" [] ["a.png"] sample_world).trace = some 1 ∧
      created_overrides (main "n30f" [] ["a.png"] sample_world).trace =
        [some (if ([] : List GetoptResult).any gives_ignored = true then 1 else 0)]) ∧
    (show_window sample_world 4194305 0 0 "n30f" 1).1.foldl
        (override_redirect_step 4194305) (some 0) = some 1 ∧
    main "n30f" (GetoptResult.char 'i' "" :: []) ["a.png"] sample_world =
      ⟨(main "n30f" [] ["a.png"] sample_world).trace.map (with_creation_override 1),
        (main "n30f" [] ["a.png"] sample_world).status⟩ :=
  ⟨override_redirect_forced_whatever_ignored.1 "n30f" [GetoptResult.char 'i' ""] ["a.png"]
      sample_world 7 11 sample_screen (by unfold OptionsAccepted; decide) sample_reaches_window
      sample_atoms_resolved,
    override_redirect_forced_whatever_ignored.1 "n30f" [] ["a.png"]
      sample_world 7 11 sample_screen (by unfold OptionsAccepted; decide) sample_reaches_window
      sample_atoms_resolved,
    override_redirect_forced_whatever_ignored.2.1 sample_world 4194305 0 0 "n30f" 1 0
      sample_atoms_resolved,
    override_redirect_forced_whatever_ignored.2.2 "n30f" (GetoptResult.char 'i' "") []
      ["a.png"] sample_world rfl⟩

/-! ## Printing the window id -/

theorem hex_value_hex_digit (d : Nat) (h : d < 16) : hex_value (hex_digit d) = some d := by
  interval_cases d <;> decide

theorem hex_digit_lowercase (d : Nat) (h : d < 16) :
    hex_digit d ∈ "0123456789abcdef".toList := by
  interval_cases d <;> decide

theorem fixed_hex_length (n : Nat) : ∀ v, (fixed_hex n v).length = n := by
  induction n with
  | zero => intro v; rfl
  | succ n ih => intro v; simp [fixed_hex, ih]

theorem fixed_hex_lowercase (n : Nat) :
    ∀ v, ∀ c ∈ fixed_hex n v, c ∈ "0123456789abcdef".toList := by
  induction n with
  | zero => intro v c hc; cases hc
  | succ n ih =>
    intro v c hc
    simp only [fixed_hex, List.mem_append, List.mem_singleton] at hc
    rcases hc with h | h
    · exact ih _ c h
    · rw [h]
      exact hex_digit_lowercase _ (Nat.mod_lt _ (by norm_num))

theorem fixed_hex_leading_zero (k : Nat) :
    ∀ v, v < 16 ^ k → fixed_hex (k + 1) v = '0' :: fixed_hex k v := by
  induction k with
  | zero =>
    intro v hv
    have h0 : v = 0 := by simpa using hv
    subst h0
    rfl
  | succ k ih =>
    intro v hv
    have h1 : v / 16 < 16 ^ k := by
      rw [Nat.div_lt_iff_lt_mul (by norm_num)]
      rw [pow_succ] at hv
      exact hv
    show fixed_hex (k + 1) (v / 16) ++ [hex_digit (v % 16)] = _
    rw [ih _ h1]
    rfl

theorem fixed_hex_pad (k : Nat) (v : Nat) (hv : v < 16 ^ k) :
    ∀ m, List.replicate m '0' ++ fixed_hex k v = fixed_hex (k + m) v := by
  intro m
  induction m with
  | zero => rfl
  | succ m ih =>
    have h1 : v < 16 ^ (k + m) :=
      lt_of_lt_of_le hv (Nat.pow_le_pow_right (by norm_num) (Nat.le_add_right _ _))
    rw [show k + (m + 1) = (k + m) + 1 from rfl, fixed_hex_leading_zero _ v h1, ← ih]
    rfl

/-- The digits `%x` produces are the `k` low digits for some `k` that holds the
whole value. -/
theorem hex_digits_eq_fixed (fuel : Nat) :
    ∀ v acc, v < 16 ^ (fuel + 1) →
      ∃ k, 1 ≤ k ∧ k ≤ fuel + 1 ∧ v < 16 ^ k ∧
        hex_digits (fuel + 1) v acc = fixed_hex k v ++ acc := by
  induction fuel with
  | zero =>
    intro v acc hv
    refine ⟨1, le_refl _, le_refl _, hv, ?_⟩
    have h0 : v / 16 = 0 := by
      have : v < 16 := by simpa using hv
      omega
    simp [hex_digits, h0, fixed_hex]
  | succ fuel ih =>
    intro v acc hv
    by_cases h0 : v / 16 = 0
    · have h1 : v < 16 ^ 1 := by
        have : v < 16 := by omega
        simpa using this
      refine ⟨1, le_refl _, by omega, h1, ?_⟩
      rw [hex_digits, if_pos h0]
      simp [fixed_hex]
    · have h1 : v / 16 < 16 ^ (fuel + 1) := by
        rw [Nat.div_lt_iff_lt_mul (by norm_num)]
        rw [pow_succ] at hv
        exact hv
      obtain ⟨k, hk1, hk2, hk3, hk4⟩ := ih (v / 16) (hex_digit (v % 16) :: acc) h1
      refine ⟨k + 1, by omega, by omega, ?_, ?_⟩
      · rw [pow_succ]
        have := (Nat.div_lt_iff_lt_mul (by norm_num : 0 < 16)).mp hk3
        exact this
      · rw [hex_digits, if_neg h0, hk4]
        simp [fixed_hex]

/-- For a 32-bit value `%08x` gives its 8 low hexadecimal digits. -/
theorem printf_08x_eq_fixed (v : Nat) (hv : v < 2 ^ 32) : printf_08x v = fixed_hex 8 v := by
  have h1 : v % 2 ^ 32 = v := Nat.mod_eq_of_lt hv
  have h2 : v < 16 ^ (7 + 1) := by
    have : (16 : Nat) ^ (7 + 1) = 2 ^ 32 := by norm_num
    rw [this]; exact hv
  obtain ⟨k, hk1, hk2, hk3, hk4⟩ := hex_digits_eq_fixed 7 v [] h2
  unfold printf_08x
  simp only [h1]
  rw [show (8 : Nat) = 7 + 1 from rfl, hk4, List.append_nil, fixed_hex_length,
    fixed_hex_pad k v hk3 (7 + 1 - k)]
  congr 1
  omega

theorem parse_hex_from_append (xs : List Char) :
    ∀ acc c, parse_hex_from acc (xs ++ [c]) =
      match parse_hex_from acc xs with
      | none => none
      | some a => parse_hex_from a [c] := by
  induction xs with
  | nil => intro acc c; rfl
  | cons x xs ih =>
    intro acc c
    simp only [List.cons_append, parse_hex_from]
    cases hex_value x with
    | none => rfl
    | some d => exact ih _ c

theorem parse_hex_fixed (n : Nat) :
    ∀ v acc, parse_hex_from acc (fixed_hex n v) = some (acc * 16 ^ n + v % 16 ^ n) := by
  induction n with
  | zero => intro v acc; simp [fixed_hex, parse_hex_from, Nat.mod_one]
  | succ n ih =>
    intro v acc
    rw [fixed_hex, parse_hex_from_append, ih]
    simp only [parse_hex_from, hex_value_hex_digit _ (Nat.mod_lt v (by norm_num : 0 < 16))]
    congr 1
    have h1 : v % 16 ^ (n + 1) = v % 16 + 16 * (v / 16 % 16 ^ n) := by
      rw [pow_succ, mul_comm, Nat.mod_mul]
    rw [h1, pow_succ]
    ring

theorem stdout_texts_append (a b : List Effect) :
    stdout_texts (a ++ b) = stdout_texts a ++ stdout_texts b := by
  simp [stdout_texts]

theorem stdout_texts_event_loop (command : Option String) (nw nh : Nat) (events : List Nat) :
    stdout_texts (event_loop command nw nh events) = [] := by
  induction events with
  | nil => rfl
  | cons rt evs ih =>
    simp only [event_loop, stdout_texts_append, ih]
    by_cases h1 : event_code rt = XCB_EXPOSE <;>
      by_cases h2 : event_code rt = XCB_BUTTON_PRESS <;>
        simp only [h1, h2, if_true, if_false] <;> cases command <;> rfl

theorem stdout_texts_main (argv0 : String) (results : List GetoptResult) (args : List String)
    (w : World) (nw nh : Nat) (scr : xcb_screen_t)
    (ha : OptionsAccepted results) (hr : ReachesWindow args w nw nh scr)
    (hat : AtomsResolved w) :
    stdout_texts (main argv0 results args w).trace =
      (if args.length ≠ 1 then ["warning: unexpected argument\n"] else []) ++
      (if results.any gives_print = true then [print_window (w.generate_id 1)] else []) := by
  obtain ⟨file, more, v, hargs, _, hmain⟩ :=
    main_of_reaches argv0 results args w nw nh scr ha hr
  have hflag := accepted_flag_value w results ha Locals.print_flag gives_print
    (option_step_print_flag w)
  rw [hmain, main_display_eq]
  simp only [show_window_returns _ _ _ _ _ _ hat, stdout_texts_append]
  have hs : stdout_texts (show_window w (w.generate_id 1) (option_loop w {} results).x
      (placed_y (option_loop w {} results) ⟨scr, v⟩ nh) (option_loop w {} results).title
      (if (option_loop w {} results).unmapped ≠ 0 then 0 else 1)).1 = [] := by
    apply filterMap_eq_nil_of_forall
    intro e he
    have h1 := show_window_effects _ _ _ _ _ _ e he
    cases e <;> first | rfl | cases h1
  rw [hs]
  simp only [Bool.true_eq_false, if_false, after_show_window, stdout_texts_append,
    stdout_texts_event_loop, hflag]
  have hw : stdout_texts (if more ≠ [] then
      [Effect.stdout "warning: unexpected argument\n"] else []) =
      if args.length ≠ 1 then ["warning: unexpected argument\n"] else [] := by
    subst hargs
    cases more with
    | nil => rfl
    | cons m ms => simp [stdout_texts, Effect.stdout_text]
  have hd : stdout_texts (if (option_loop w {} results).background ≠ 0 then
      [Effect.daemon 1 0] else []) = [] := by
    split <;> rfl
  rw [hw, hd]
  by_cases hp : results.any gives_print = true
  · simp [hp, stdout_texts, Effect.stdout_text, create_window]
  · simp [hp, stdout_texts, Effect.stdout_text, create_window]

/-- C9: for every 32-bit window id the text of the `printf` is `0x`, then
exactly 8 lowercase hexadecimal digits (zero-padded on the left) whose base-16
value is the id, then a newline: 10 characters before the newline.  A run that
reaches the event loop writes that text to standard output when `-p` or
`--print` is given and writes nothing for the window when it is not (the only
other text a run can write there is the warning about a surplus argument). -/
theorem print_window_is_0x_and_8_hex_digits :
    (∀ window : Nat, window < 2 ^ 32 →
      print_window window = String.mk (['0', 'x'] ++ printf_08x window ++ ['\n']) ∧
      (printf_08x window).length = 8 ∧
      (∀ c ∈ printf_08x window, c ∈ "0123456789abcdef".toList) ∧
      parse_hex_from 0 (printf_08x window) = some window ∧
      (print_window window).length = 11) ∧
    (∀ (argv0 : String) (results : List GetoptResult) (args : List String) (w : World)
      (nw nh : Nat) (scr : xcb_screen_t),
      OptionsAccepted results → ReachesWindow args w nw nh scr → AtomsResolved w →
      stdout_texts (main argv0 results args w).trace =
        (if args.length ≠ 1 then ["warning: unexpected argument\n"] else []) ++
        (if results.any gives_print = true then [print_window (w.generate_id 1)] else [])) := by
  refine ⟨?_, stdout_texts_main⟩
  intro window hw
  have h8 := printf_08x_eq_fixed window hw
  refine ⟨rfl, ?_, ?_, ?_, ?_⟩
  · rw [h8, fixed_hex_length]
  · rw [h8]; exact fixed_hex_lowercase 8 window
  · rw [h8, parse_hex_fixed]
    have : window % 16 ^ 8 = window := by
      apply Nat.mod_eq_of_lt
      have h16 : (16 : Nat) ^ 8 = 2 ^ 32 := by norm_num
      rw [h16]; exact hw
    rw [this]
    simp
  · unfold print_window
    simp [String.length, h8, fixed_hex_length]

theorem print_window_is_0x_and_8_hex_digits_witness :
    (print_window 4194305 = String.mk (['0', 'x'] ++ printf_08x 4194305 ++ ['\n']) ∧
      (printf_08x 4194305).length = 8 ∧
      (∀ c ∈ printf_08x 4194305, c ∈ "0123456789abcdef".toList) ∧
      parse_hex_from 0 (printf_08x 4194305) = some 4194305 ∧
      (print_window 4194305).length = 11) ∧
    print_window 4194305 = "0x00400001\n" ∧
    stdout_texts (main "n30f" [GetoptResult.char 'p' ""] ["a.png"] sample_world).trace =
      (if ["a.png"].length ≠ 1 then ["warning: unexpected argument\n"] else []) ++
      (if [GetoptResult.char 'p' ""].any gives_print = true then
        [print_window (sample_world.generate_id 1)] else []) ∧
    stdout_texts (main "n30f" [] ["a.png"] sample_world).trace =
      (if ["a.png"].length ≠ 1 then ["warning: unexpected argument\n"] else []) ++
      (if ([] : List GetoptResult).any gives_print = true then
        [print_window (sample_world.generate_id 1)] else []) :=
  ⟨print_window_is_0x_and_8_hex_digits.1 4194305 (by norm_num),
    by decide,
    print_window_is_0x_and_8_hex_digits.2 "n30f" [GetoptResult.char 'p' ""] ["a.png"]
      sample_world 7 11 sample_screen (by unfold OptionsAccepted; decide) sample_reaches_window
      sample_atoms_resolved,
    print_window_is_0x_and_8_hex_digits.2 "n30f" [] ["a.png"]
      sample_world 7 11 sample_screen (by unfold OptionsAccepted; decide) sample_reaches_window
      sample_atoms_resolved⟩

/-! ## The position and the scale the options leave -/

theorem main_switch_y (w : World) (l : Locals) (o : Int) (a : String) :
    (main_switch w l o a).1.y = if o = 121 then w.atoi a else l.y := by
  rw [main_switch_eq]
  rcases main_switch_cases o with h | h | h | h | h | h | h | h | h | h | h | h | h
  iterate 12 (subst h; rfl)
  obtain ⟨n1, n2, n3, n4, n5, n6, n7, n8, n9, n10, n11, n12⟩ := h
  rw [if_neg n1, if_neg n2, if_neg n3, if_neg n4, if_neg n5, if_neg n6, if_neg n7, if_neg n8,
    if_neg n9, if_neg n10, if_neg n11, if_neg n12, if_neg n10]

theorem main_switch_s (w : World) (l : Locals) (o : Int) (a : String) :
    (main_switch w l o a).1.s = if o = 115 then w.atof a else l.s := by
  rw [main_switch_eq]
  rcases main_switch_cases o with h | h | h | h | h | h | h | h | h | h | h | h | h
  iterate 12 (subst h; rfl)
  obtain ⟨n1, n2, n3, n4, n5, n6, n7, n8, n9, n10, n11, n12⟩ := h
  rw [if_neg n1, if_neg n2, if_neg n3, if_neg n4, if_neg n5, if_neg n6, if_neg n7, if_neg n8,
    if_neg n9, if_neg n10, if_neg n11, if_neg n12, if_neg n8]

theorem option_step_y (w : World) (l : Locals) (r : GetoptResult) :
    (option_step w l r).y = if is_option_char 'y' r = true then w.atoi r.optarg else l.y := by
  cases r with
  | char c a =>
    simp only [option_step, getopt_long, GetoptResult.optarg, main_switch_y, ← code_y,
      char_code_inj, is_option_char, decide_eq_true_eq]
  | long i a =>
    rw [option_step, getopt_long_long, main_switch_y]
    cases i <;> simp [is_option_char]

theorem option_step_s (w : World) (l : Locals) (r : GetoptResult) :
    (option_step w l r).s = if is_option_char 's' r = true then w.atof r.optarg else l.s := by
  cases r with
  | char c a =>
    simp only [option_step, getopt_long, GetoptResult.optarg, main_switch_s, ← code_s,
      char_code_inj, is_option_char, decide_eq_true_eq]
  | long i a =>
    rw [option_step, getopt_long_long, main_switch_s]
    cases i <;> simp [is_option_char]

/-- Among accepted options, a field that only the option `g` writes holds what
the last such option wrote, or its initial value when there is none. -/
theorem accepted_last_value {α : Type} (w : World) (f : Locals → α) (g : GetoptResult → Bool)
    (val : GetoptResult → α)
    (hstep : ∀ l r, f (option_step w l r) = if g r = true then val r else f l) :
    (∀ results, OptionsAccepted results → (∀ r ∈ results, g r = false) →
      f (option_loop w {} results) = f {}) ∧
    (∀ before r after, OptionsAccepted (before ++ r :: after) → g r = true →
      (∀ r1 ∈ after, g r1 = false) →
      f (option_loop w {} (before ++ r :: after)) = val r) := by
  have hkeep : ∀ (rs : List GetoptResult) (l : Locals), (∀ r ∈ rs, g r = false) →
      f (rs.foldl (option_step w) l) = f l := by
    intro rs
    induction rs with
    | nil => intro l _; rfl
    | cons r rs ih =>
      intro l h
      rw [List.foldl_cons, ih _ (fun r1 h1 => h r1 (List.mem_cons_of_mem _ h1)), hstep,
        h r (List.mem_cons_self _ _)]
      simp
  constructor
  · intro results ha hno
    rw [option_loop_eq_foldl w results _ (not_short_h_of_accepted results ha)]
    exact hkeep results {} hno
  · intro before r after ha hr hafter
    rw [option_loop_eq_foldl w _ _ (not_short_h_of_accepted _ ha), List.foldl_append,
      List.foldl_cons, hkeep after _ hafter, hstep, if_pos hr]

/-! ## The position of the window -/

theorem wrap_int_of_fits (i : Int) (h1 : -2 ^ 31 ≤ i) (h2 : i < 2 ^ 31) : wrap_int i = i := by
  unfold wrap_int
  norm_num at h1 h2 ⊢
  omega

theorem configure_values_append (a b : List Effect) :
    configure_values (a ++ b) = configure_values a ++ configure_values b := by
  simp [configure_values]

theorem configure_values_main (argv0 : String) (results : List GetoptResult)
    (args : List String) (w : World) (nw nh : Nat) (scr : xcb_screen_t)
    (ha : OptionsAccepted results) (hr : ReachesWindow args w nw nh scr)
    (hat : AtomsResolved w) :
    ∃ v, get_alpha_visualtype scr = some v ∧
    configure_values (main argv0 results args w).trace =
      [[to_uint32 (option_loop w {} results).x,
        to_uint32 (placed_y (option_loop w {} results) ⟨scr, v⟩ nh)]] := by
  obtain ⟨file, more, v, _, hv, hmain⟩ := main_of_reaches argv0 results args w nw nh scr ha hr
  refine ⟨v, hv, ?_⟩
  obtain ⟨a0, a1, a2, a3, a4, h⟩ := atom_replies_of_resolved w hat
  rw [hmain, main_display_eq]
  rw [show_window_of_atoms w _ _ _ _ _ a0 a1 a2 a3 a4 h]
  simp only [Bool.true_eq_false, if_false, configure_values_append]
  have h1 : configure_values (after_show_window w (option_loop w {} results) nw nh) = [] := by
    apply filterMap_eq_nil_of_forall
    intro e he
    have h2 := after_show_effects w _ nw nh e he
    cases e <;> first | rfl | cases h2
  have h2 : configure_values cookies = [] := by
    apply filterMap_eq_nil_of_forall
    intro e he
    simp only [cookies, atom_names, List.map_cons, List.map_nil, List.mem_cons,
      List.mem_singleton, List.not_mem_nil, or_false] at he
    rcases he with h | h | h | h | h <;> (subst h; rfl)
  have h3 : configure_values (if more ≠ [] then
      [Effect.stdout "warning: unexpected argument\n"] else []) = [] := by
    split <;> rfl
  have h4 : ∀ win : Nat, configure_values
      (if (if (option_loop w {} results).unmapped ≠ 0 then (0 : Int) else 1) ≠ 0 then
        [Effect.xcb_map_window win] else []) = [] := by
    intro win
    split <;> rfl
  rw [h1, h2, h3, h4]
  rfl

/-- C3: in a run that gets through `show_window`, with `-b` or `--bottom` given
the `y` passed to `xcb_create_window` and the one sent again by
`xcb_configure_window` is `H - h - y`, for the screen height `H`, the natural
(unscaled) image height `h` and the `y` of the options (so the scale plays no
part), as long as that value fits an `int`; without the option it is `y`
unchanged.  The `y` of the options is `atoi` of the argument of the last `-y`,
or 0 when there is none. -/
theorem bottom_places_window_from_screen_bottom (w : World) :
    (∀ (argv0 : String) (results : List GetoptResult) (args : List String)
      (nw nh : Nat) (scr : xcb_screen_t),
      OptionsAccepted results → ReachesWindow args w nw nh scr → AtomsResolved w →
      (∃ r ∈ results, gives_bottom r = true) →
      scr.height_in_pixels < 2 ^ 16 → nh < 2 ^ 31 →
      -2 ^ 31 ≤ (scr.height_in_pixels : Int) - nh - (option_loop w {} results).y →
      (scr.height_in_pixels : Int) - nh - (option_loop w {} results).y < 2 ^ 31 →
      created_positions (main argv0 results args w).trace =
          [((option_loop w {} results).x,
            (scr.height_in_pixels : Int) - nh - (option_loop w {} results).y)] ∧
        configure_values (main argv0 results args w).trace =
          [[to_uint32 (option_loop w {} results).x,
            to_uint32 ((scr.height_in_pixels : Int) - nh - (option_loop w {} results).y)]]) ∧
    (∀ (argv0 : String) (results : List GetoptResult) (args : List String)
      (nw nh : Nat) (scr : xcb_screen_t),
      OptionsAccepted results → ReachesWindow args w nw nh scr → AtomsResolved w →
      (∀ r ∈ results, gives_bottom r = false) →
      created_positions (main argv0 results args w).trace =
          [((option_loop w {} results).x, (option_loop w {} results).y)] ∧
        configure_values (main argv0 results args w).trace =
          [[to_uint32 (option_loop w {} results).x,
            to_uint32 (option_loop w {} results).y]]) ∧
    (∀ results, OptionsAccepted results → (∀ r ∈ results, is_option_char 'y' r = false) →
      (option_loop w {} results).y = 0) ∧
    (∀ before r after, OptionsAccepted (before ++ r :: after) → is_option_char 'y' r = true →
      (∀ r1 ∈ after, is_option_char 'y' r1 = false) →
      (option_loop w {} (before ++ r :: after)).y = w.atoi r.optarg) := by
  refine ⟨?_, ?_, (accepted_last_value w Locals.y (is_option_char 'y')
      (fun r => w.atoi r.optarg) (option_step_y w)).1,
    (accepted_last_value w Locals.y (is_option_char 'y')
      (fun r => w.atoi r.optarg) (option_step_y w)).2⟩
  · intro argv0 results args nw nh scr ha hr hat hb hH hh hlo hhi
    have hflag : (option_loop w {} results).bottom = 1 := by
      rw [accepted_flag_value w results ha Locals.bottom gives_bottom (option_step_bottom w)]
      have : results.any gives_bottom = true := by
        rw [List.any_eq_true]; exact hb
      rw [if_pos this]
    have hy : ∀ v, placed_y (option_loop w {} results) ⟨scr, v⟩ nh =
        (scr.height_in_pixels : Int) - nh - (option_loop w {} results).y := by
      intro v
      unfold placed_y
      rw [hflag, if_pos (by decide)]
      have h1 : wrap_int ((scr.height_in_pixels : Int) - nh) = (scr.height_in_pixels : Int) - nh := by
        apply wrap_int_of_fits
        · have : (nh : Int) < 2 ^ 31 := by exact_mod_cast hh
          have : (0 : Int) ≤ scr.height_in_pixels := Int.natCast_nonneg _
          omega
        · have : (scr.height_in_pixels : Int) < 2 ^ 16 := by exact_mod_cast hH
          have : (0 : Int) ≤ nh := Int.natCast_nonneg _
          norm_num at *
          omega
      show wrap_int (wrap_int ((scr.height_in_pixels : Int) - nh) - _) = _
      rw [h1]
      exact wrap_int_of_fits _ hlo hhi
    obtain ⟨v, _, h1⟩ := created_positions_main argv0 results args w nw nh scr ha hr
    obtain ⟨v2, _, h2⟩ := configure_values_main argv0 results args w nw nh scr ha hr hat
    rw [h1, h2, hy, hy]
    exact ⟨rfl, rfl⟩
  · intro argv0 results args nw nh scr ha hr hat hb
    have hflag : (option_loop w {} results).bottom = 0 := by
      rw [accepted_flag_value w results ha Locals.bottom gives_bottom (option_step_bottom w),
        any_eq_false_of_forall gives_bottom results hb]
      rfl
    have hy : ∀ v, placed_y (option_loop w {} results) ⟨scr, v⟩ nh =
        (option_loop w {} results).y := by
      intro v
      unfold placed_y
      rw [hflag]
      rfl
    obtain ⟨v, _, h1⟩ := created_positions_main argv0 results args w nw nh scr ha hr
    obtain ⟨v2, _, h2⟩ := configure_values_main argv0 results args w nw nh scr ha hr hat
    rw [h1, h2, hy, hy]
    exact ⟨rfl, rfl⟩

theorem bottom_places_window_from_screen_bottom_witness :
    (created_positions (main "n30f"
          [GetoptResult.char 'y' "5", GetoptResult.long LongIndex.bottom ""] ["a.png"]
          sample_world).trace =
        [((option_loop sample_world {}
              [GetoptResult.char 'y' "5", GetoptResult.long LongIndex.bottom ""]).x,
          (sample_screen.height_in_pixels : Int) - (11 : Nat) -
            (option_loop sample_world {}
              [GetoptResult.char 'y' "5", GetoptResult.long LongIndex.bottom ""]).y)] ∧
      configure_values (main "n30f"
          [GetoptResult.char 'y' "5", GetoptResult.long LongIndex.bottom ""] ["a.png"]
          sample_world).trace =
        [[to_uint32 (option_loop sample_world {}
              [GetoptResult.char 'y' "5", GetoptResult.long LongIndex.bottom ""]).x,
          to_uint32 ((sample_screen.height_in_pixels : Int) - (11 : Nat) -
            (option_loop sample_world {}
              [GetoptResult.char 'y' "5", GetoptResult.long LongIndex.bottom ""]).y)]]) ∧
    (sample_screen.height_in_pixels : Int) - (11 : Nat) -
        (option_loop sample_world {}
          [GetoptResult.char 'y' "5", GetoptResult.long LongIndex.bottom ""]).y = 1064 ∧
    (created_positions (main "n30f" [GetoptResult.char 'y' "5"] ["a.png"] sample_world).trace =
        [((option_loop sample_world {} [GetoptResult.char 'y' "5"]).x,
          (option_loop sample_world {} [GetoptResult.char 'y' "5"]).y)] ∧
      configure_values (main "n30f" [GetoptResult.char 'y' "5"] ["a.png"] sample_world).trace =
        [[to_uint32 (option_loop sample_world {} [GetoptResult.char 'y' "5"]).x,
          to_uint32 (option_loop sample_world {} [GetoptResult.char 'y' "5"]).y]]) ∧
    (option_loop sample_world {} ([] ++ GetoptResult.char 'y' "5" ::
        [GetoptResult.long LongIndex.bottom ""])).y = sample_world.atoi "5" :=
  ⟨(bottom_places_window_from_screen_bottom sample_world).1 "n30f"
      [GetoptResult.char 'y' "5", GetoptResult.long LongIndex.bottom ""] ["a.png"] 7 11
      sample_screen (by unfold OptionsAccepted; decide) sample_reaches_window
      sample_atoms_resolved ⟨GetoptResult.long LongIndex.bottom "", by decide, rfl⟩
      (by decide) (by decide) (by decide) (by decide),
    by decide,
    (bottom_places_window_from_screen_bottom sample_world).2.1 "n30f"
      [GetoptResult.char 'y' "5"] ["a.png"] 7 11
      sample_screen (by unfold OptionsAccepted; decide) sample_reaches_window
      sample_atoms_resolved (by decide),
    (bottom_places_window_from_screen_bottom sample_world).2.2.2 []
      (GetoptResult.char 'y' "5") [GetoptResult.long LongIndex.bottom ""]
      (by unfold OptionsAccepted; decide) rfl (by decide)⟩

/-! ## The size of the window -/

theorem trunc_intCast (t : Int) : trunc_toward_zero (t : ℚ) = t := by
  unfold trunc_toward_zero
  split
  · exact Int.floor_intCast t
  · exact Int.ceil_intCast t

theorem trunc_div_pow (m : Int) (k : Nat) :
    trunc_toward_zero ((m : ℚ) / ((2 ^ k : Nat) : ℚ)) = Int.tdiv m ((2 ^ k : Nat) : Int) := by
  have hpos : (0 : ℚ) < ((2 ^ k : Nat) : ℚ) := by positivity
  unfold trunc_toward_zero
  by_cases hm : 0 ≤ m
  · have h1 : (0 : ℚ) ≤ (m : ℚ) / ((2 ^ k : Nat) : ℚ) :=
      div_nonneg (by exact_mod_cast hm) hpos.le
    rw [if_pos h1, Rat.floor_intCast_div_natCast,
      Int.tdiv_eq_ediv hm (Int.natCast_nonneg _)]
  · have hm1 : m < 0 := lt_of_not_ge hm
    have h1 : ¬ (0 : ℚ) ≤ (m : ℚ) / ((2 ^ k : Nat) : ℚ) := by
      rw [not_le]
      exact div_neg_of_neg_of_pos (by exact_mod_cast hm1) hpos
    rw [if_neg h1]
    have h2 : (m : ℚ) / ((2 ^ k : Nat) : ℚ) = -(((-m : Int) : ℚ) / ((2 ^ k : Nat) : ℚ)) := by
      push_cast
      ring
    rw [h2, Int.ceil_neg, Rat.floor_intCast_div_natCast]
    have h3 : Int.tdiv m ((2 ^ k : Nat) : Int) = -(Int.tdiv (-m) ((2 ^ k : Nat) : Int)) := by
      rw [Int.neg_tdiv, neg_neg]
    rw [h3, Int.tdiv_eq_ediv (by omega) (Int.natCast_nonneg _)]

/-- The cast `(int)d` of a finite double whose truncated value fits an `int` is
that value truncated toward zero. -/
theorem to_int_eq_trunc (d : Double) (q : ℚ) (hq : d.toRat = some q)
    (hlo : -2 ^ 31 ≤ trunc_toward_zero q) (hhi : trunc_toward_zero q < 2 ^ 31) :
    d.to_int = trunc_toward_zero q := by
  cases d with
  | nonfin => cases hq
  | fin m e =>
    simp only [Double.toRat, Option.some.injEq] at hq
    have ht : (if 0 ≤ e then m * 2 ^ e.toNat else Int.tdiv m (2 ^ (-e).toNat)) =
        trunc_toward_zero q := by
      by_cases he : 0 ≤ e
      · rw [if_pos he, ← hq]
        have h1 : ((m : ℚ) * (2 : ℚ) ^ e) = ((m * 2 ^ e.toNat : Int) : ℚ) := by
          obtain ⟨k, hk⟩ := Int.eq_ofNat_of_zero_le he
          subst hk
          simp
        rw [h1, trunc_intCast]
      · rw [if_neg he, ← hq]
        have hneg : e = -(((-e).toNat : Nat) : Int) := by
          rw [Int.toNat_of_nonneg (by omega)]
          ring
        have h1 : ((m : ℚ) * (2 : ℚ) ^ e) = (m : ℚ) / ((2 ^ (-e).toNat : Nat) : ℚ) := by
          conv_lhs => rw [hneg]
          rw [zpow_neg, zpow_natCast]
          push_cast
          rfl
        rw [h1, trunc_div_pow]
        push_cast
        rfl
    unfold Double.to_int
    simp only [ht]
    rw [if_pos ⟨hlo, hhi⟩]

/-- The product of an `int` below 2^53 in size and a double is exact when it
has at most 53 significant bits. -/
theorem mul_of_int_exact (n : Nat) (m e : Int) (hn : n < 2 ^ 53)
    (hm : ((n : Int) * m).natAbs < 2 ^ 53) :
    (Double.mul (Double.of_int n) (Double.fin m e)).toRat =
      some ((n : ℚ) * ((m : ℚ) * (2 : ℚ) ^ e)) := by
  have h1 : Double.of_int n = Double.fin n 0 := by
    unfold Double.of_int Double.round
    simp only [Int.natAbs_ofNat]
    rw [if_pos hn]
  rw [h1]
  unfold Double.mul Double.round
  simp only []
  rw [if_pos hm]
  simp only [Double.toRat, zero_add, Option.some.injEq]
  push_cast
  ring

/-- C2 (as the code has it): the width and height passed to
`xcb_create_window` and to `cairo_xcb_surface_create` are the double products
`w * s` and `h * s` cast to `int`, that is truncated toward zero (the fraction
is dropped, not rounded to the nearest integer), whenever the truncated values
fit an `int`.  The product is the exact `w * s` when that has at most 53
significant bits.  The scale `s` is `atof` of the argument of the last `-s`, or
1 when there is none. -/
theorem window_size_is_scaled_size_truncated (w : World) :
    (∀ (argv0 : String) (results : List GetoptResult) (args : List String)
      (nw nh : Nat) (scr : xcb_screen_t) (qw qh : ℚ),
      OptionsAccepted results → ReachesWindow args w nw nh scr →
      (Double.mul (Double.of_int nw) (option_loop w {} results).s).toRat = some qw →
      (Double.mul (Double.of_int nh) (option_loop w {} results).s).toRat = some qh →
      -2 ^ 31 ≤ trunc_toward_zero qw → trunc_toward_zero qw < 2 ^ 31 →
      -2 ^ 31 ≤ trunc_toward_zero qh → trunc_toward_zero qh < 2 ^ 31 →
      created_sizes (main argv0 results args w).trace =
          [(trunc_toward_zero qw, trunc_toward_zero qh)] ∧
        surface_sizes (main argv0 results args w).trace =
          [(trunc_toward_zero qw, trunc_toward_zero qh)]) ∧
    (∀ (n : Nat) (m e : Int), n < 2 ^ 53 → ((n : Int) * m).natAbs < 2 ^ 53 →
      (Double.mul (Double.of_int n) (Double.fin m e)).toRat =
        some ((n : ℚ) * ((m : ℚ) * (2 : ℚ) ^ e))) ∧
    (∀ results, OptionsAccepted results → (∀ r ∈ results, is_option_char 's' r = false) →
      (option_loop w {} results).s = Double.fin 1 0) ∧
    (∀ before r after, OptionsAccepted (before ++ r :: after) → is_option_char 's' r = true →
      (∀ r1 ∈ after, is_option_char 's' r1 = false) →
      (option_loop w {} (before ++ r :: after)).s = w.atof r.optarg) := by
  refine ⟨?_, mul_of_int_exact, (accepted_last_value w Locals.s (is_option_char 's')
      (fun r => w.atof r.optarg) (option_step_s w)).1,
    (accepted_last_value w Locals.s (is_option_char 's')
      (fun r => w.atof r.optarg) (option_step_s w)).2⟩
  intro argv0 results args nw nh scr qw qh ha hr hqw hqh hw1 hw2 hh1 hh2
  have e1 : scaled nw (option_loop w {} results).s = trunc_toward_zero qw :=
    to_int_eq_trunc _ qw hqw hw1 hw2
  have e2 : scaled nh (option_loop w {} results).s = trunc_toward_zero qh :=
    to_int_eq_trunc _ qh hqh hh1 hh2
  rw [created_sizes_main argv0 results args w nw nh scr ha hr,
    surface_sizes_main argv0 results args w nw nh scr ha hr, e1, e2]
  exact ⟨rfl, rfl⟩

theorem trunc_seven_quarters : trunc_toward_zero (7 / 4) = 1 := by
  unfold trunc_toward_zero
  rw [if_pos (by norm_num), Int.floor_eq_iff]
  norm_num

theorem trunc_eleven_quarters : trunc_toward_zero (11 / 4) = 2 := by
  unfold trunc_toward_zero
  rw [if_pos (by norm_num), Int.floor_eq_iff]
  norm_num

theorem sample_scale_quarter :
    (option_loop sample_world {} [GetoptResult.char 's' "0.25"]).s = Double.fin 1 (-2) := by
  decide

theorem window_size_is_scaled_size_truncated_witness :
    (created_sizes (main "n30f" [GetoptResult.char 's' "0.25"] ["a.png"] sample_world).trace =
        [(trunc_toward_zero (7 / 4), trunc_toward_zero (11 / 4))] ∧
      surface_sizes (main "n30f" [GetoptResult.char 's' "0.25"] ["a.png"] sample_world).trace =
        [(trunc_toward_zero (7 / 4), trunc_toward_zero (11 / 4))]) ∧
    trunc_toward_zero (7 / 4) = 1 ∧ trunc_toward_zero (11 / 4) = 2 ∧
    (Double.mul (Double.of_int (7 : Nat)) (Double.fin 1 (-2))).toRat =
      some (((7 : Nat) : ℚ) * (((1 : Int) : ℚ) * (2 : ℚ) ^ (-2 : Int))) ∧
    (option_loop sample_world {} ([] ++ GetoptResult.char 's' "0.25" :: [])).s =
      sample_world.atof "0.25" := by
  have h7 : (Double.mul (Double.of_int (7 : Nat))
      (option_loop sample_world {} [GetoptResult.char 's' "0.25"]).s).toRat = some (7 / 4) := by
    rw [sample_scale_quarter, mul_of_int_exact 7 1 (-2) (by norm_num) (by decide)]
    norm_num
  have h11 : (Double.mul (Double.of_int (11 : Nat))
      (option_loop sample_world {} [GetoptResult.char 's' "0.25"]).s).toRat = some (11 / 4) := by
    rw [sample_scale_quarter, mul_of_int_exact 11 1 (-2) (by norm_num) (by decide)]
    norm_num
  exact ⟨(window_size_is_scaled_size_truncated sample_world).1 "n30f"
      [GetoptResult.char 's' "0.25"] ["a.png"] 7 11 sample_screen (7 / 4) (11 / 4)
      (by unfold OptionsAccepted; decide) sample_reaches_window h7 h11
      (by rw [trunc_seven_quarters]; norm_num) (by rw [trunc_seven_quarters]; norm_num)
      (by rw [trunc_eleven_quarters]; norm_num) (by rw [trunc_eleven_quarters]; norm_num),
    trunc_seven_quarters, trunc_eleven_quarters,
    (window_size_is_scaled_size_truncated sample_world).2.1 7 1 (-2) (by norm_num) (by decide),
    (window_size_is_scaled_size_truncated sample_world).2.2.2 []
      (GetoptResult.char 's' "0.25") [] (by unfold OptionsAccepted; decide) rfl (by decide)⟩

/-- C2 (counterexample to the claim as stated): for the 7 by 11 image and
`-s 0.25` the window and its surface are created 1 by 2 (`(int)1.75` and
`(int)2.75`), while the scaled size rounded to the nearest integer is 2 by 3. -/
theorem window_size_is_not_rounded :
    sample_world.png "a.png" = some (7, 11) ∧
    (option_loop sample_world {} [GetoptResult.char 's' "0.25"]).s.toRat = some (1 / 4) ∧
    created_sizes (main "n30f" [GetoptResult.char 's' "0.25"] ["a.png"] sample_world).trace =
      [(1, 2)] ∧
    surface_sizes (main "n30f" [GetoptResult.char 's' "0.25"] ["a.png"] sample_world).trace =
      [(1, 2)] ∧
    round ((7 : ℚ) * (1 / 4)) = 2 ∧ round ((11 : ℚ) * (1 / 4)) = 3 ∧
    ¬ (created_sizes (main "n30f" [GetoptResult.char 's' "0.25"] ["a.png"] sample_world).trace =
      [(round ((7 : ℚ) * (1 / 4)), round ((11 : ℚ) * (1 / 4)))]) := by
  have r7 : round ((7 : ℚ) * (1 / 4)) = 2 := by
    rw [round_eq, Int.floor_eq_iff]
    norm_num
  have r11 : round ((11 : ℚ) * (1 / 4)) = 3 := by
    rw [round_eq, Int.floor_eq_iff]
    norm_num
  have hc : created_sizes
      (main "n30f" [GetoptResult.char 's' "0.25"] ["a.png"] sample_world).trace = [(1, 2)] := by
    decide
  refine ⟨rfl, ?_, hc, by decide, r7, r11, ?_⟩
  · rw [sample_scale_quarter]
    simp only [Double.toRat, Option.some.injEq]
    norm_num
  · rw [hc, r7, r11]
    decide

end N30f
